import Mathlib

/-!
Shallow embedding of the AlphaFold-to-NetworkX protein graph transform
(src/transform/ALPHA_NX.py).  Floating point data is modelled with
rationals; the two structure-file parsers (RDKit, Bio.PDB) and the DSSP
analyzer are black boxes whose already-parsed outputs are inputs of the
per-protein job.  Euclidean distance over 3-D points is a floating point
computation in the source, so the development is parametrised by an
arbitrary distance function, and likewise by a coordinate formatting
function for the x,y,z string serialisation step.
-/

/-- A 3-D coordinate triple (an RDKit conformer position). -/
abbrev Pos : Type := ℚ × ℚ × ℚ

/-- Python dict lookup d.get(k): the entry with the given key.
All dicts below are built with dinsert, which keeps keys unique, so the
first match is the entry. -/
def dget {α β : Type} [BEq α] (d : List (α × β)) (k : α) : Option β :=
  (d.find? (fun p => p.1 == k)).map (fun p => p.2)

/-- Python dict assignment d[k] = v: overwrite in place if the key is
present (keeping its position, as Python dicts do), else append. -/
def dinsert {α β : Type} [BEq α] : List (α × β) → α → β → List (α × β)
  | [], k, v => [(k, v)]
  | p :: rest, k, v => if p.1 == k then (k, v) :: rest else p :: dinsert rest k v

/-- Python membership test k in d. -/
def dmem {α β : Type} [BEq α] (d : List (α × β)) (k : α) : Bool :=
  (dget d k).isSome

/-- An atom of the RDKit molecule, with its conformer position stored
inline (the source reads positions from mol.GetConformer() by the same
atom index). -/
structure RAtom where
  serial_number : Nat
  atomic_number : Int
  pos : Pos
  degree : Nat
  aromatic : Bool
  residue_number : Int
  residue_name : String
deriving Repr, DecidableEq

/-- A bond of the RDKit molecule.  The bond index is its position in the
bond list, matching GetIdx. -/
structure RBond where
  begin_atom : Nat
  end_atom : Nat
  bond_order : ℚ
deriving Repr, DecidableEq

/-- The parsed RDKit molecule (atom list indexed by GetIdx, bond list
indexed by GetIdx). -/
structure Mol where
  atoms : List RAtom
  bonds : List RBond
deriving Repr, DecidableEq

/-- RDKit molecules only ever hold bonds between two distinct existing
atom indices; the model states this invariant explicitly. -/
def Mol.WF (m : Mol) : Prop :=
  ∀ b ∈ m.bonds, b.begin_atom < m.atoms.length ∧ b.end_atom < m.atoms.length ∧
    b.begin_atom ≠ b.end_atom

/-- An atom of the Bio.PDB structure: id (stripped name, used by the
residue item lookup), full name, serial number and B-factor. -/
structure BAtom where
  name : String
  fullname : String
  serial_number : Nat
  bfactor : ℚ
deriving Repr, DecidableEq

/-- A Bio.PDB residue: sequence identifier (get_id()[1]) and atoms. -/
structure BResidue where
  resseq : Int
  atoms : List BAtom
deriving Repr, DecidableEq

/-- A Bio.PDB chain. -/
structure BChain where
  residues : List BResidue
deriving Repr, DecidableEq

/-- A Bio.PDB model. -/
structure BModel where
  chains : List BChain
deriving Repr, DecidableEq

/-- A parsed Bio.PDB structure. -/
structure BStructure where
  models : List BModel
deriving Repr, DecidableEq

/-- All residues of a structure in the model, chain, residue walking
order used by every hierarchy loop of the source. -/
def allResidues (s : BStructure) : List BResidue :=
  ((s.models.map (fun m => m.chains)).flatten.map (fun c => c.residues)).flatten

/-- Bio.PDB residue item access residue[name]: the atom whose id is the
given name, if any (the source only ever asks for CA). -/
def residueCA (res : BResidue) : Option BAtom :=
  res.atoms.find? (fun a => a.name == "CA")

/-- One record of the DSSP output for a residue, in the documented
Bio.PDB order: dssp index, amino acid, secondary structure, relative
exposure, phi, psi, then the four hydrogen bond relidx and energy
pairs. -/
structure DsspRecord where
  dssp_index : Int
  aa : String
  ss : String
  exposure : ℚ
  phi : ℚ
  psi : ℚ
  NH_O_1_relidx : Int
  NH_O_1_energy : ℚ
  O_NH_1_relidx : Int
  O_NH_1_energy : ℚ
  NH_O_2_relidx : Int
  NH_O_2_energy : ℚ
  O_NH_2_relidx : Int
  O_NH_2_energy : ℚ
deriving Repr, DecidableEq

/-- The first (and only inspected) record of the PAE JSON file. -/
structure PaeRecord where
  predicted_aligned_error : Option (List (List ℚ))
deriving Repr, DecidableEq

/-- The state of the per-protein PAE side channel file: absent (open
raises), present but not JSON (json.load raises JSONDecodeError), or a
decoded top-level list of records. -/
inductive PaeFile where
  | missing
  | undecodable
  | decoded (records : List PaeRecord)
deriving Repr, DecidableEq

/-- Equality of Except values is decidable when both components are. -/
instance exceptDecEq {e a : Type} [DecidableEq e] [DecidableEq a] :
    DecidableEq (Except e a) := fun x y =>
  match x, y with
  | Except.error u, Except.error v =>
      if h : u = v then isTrue (by rw [h]) else isFalse (by intro hh; cases hh; exact h rfl)
  | Except.ok u, Except.ok v =>
      if h : u = v then isTrue (by rw [h]) else isFalse (by intro hh; cases hh; exact h rfl)
  | Except.error _, Except.ok _ => isFalse (by intro hh; cases hh)
  | Except.ok _, Except.error _ => isFalse (by intro hh; cases hh)

/-- The parsed inputs of one per-protein job.  none for the RDKit
molecule models MolFromPDBFile returning None, none for the structure
models a PDBParser exception, and an error value for dssp models the
DSSP invocation raising or producing output of the wrong shape. -/
structure JobInput where
  rmol : Option Mol
  pstruct : Option BStructure
  pae : PaeFile
  dssp : Except String (List DsspRecord)
deriving Repr, DecidableEq

/-- A node coordinate attribute: a conformer position until the
serialisation step rewrites it to its x,y,z string form. -/
inductive CoordVal where
  | pos (p : Pos)
  | str (s : String)
deriving Repr, DecidableEq

/-- The attribute dict of one graph node.  Keys that a stage may leave
unset are Options; plddt is set to an Option value (dict .get) once the
confidence stage runs, hence the nested Option. -/
structure NodeAttrs where
  atom_name : Option String
  atomic_number : Int
  atom_coords : CoordVal
  degree : Nat
  aromatic : Bool
  residue_number : Int
  residue_name : String
  plddt : Option (Option ℚ)
  secondary_structure : Option String
  exposure : Option ℚ
  phi : Option ℚ
  psi : Option ℚ
  NH_O_1_relidx : Option Int
  NH_O_1_energy : Option ℚ
  O_NH_1_relidx : Option Int
  O_NH_1_energy : Option ℚ
  NH_O_2_relidx : Option Int
  NH_O_2_energy : Option ℚ
  O_NH_2_relidx : Option Int
  O_NH_2_energy : Option ℚ
deriving Repr, DecidableEq

/-- The attribute dict of one graph edge. -/
structure EdgeAttrs where
  bond_idx : Option Int
  bond_order : Option ℚ
  bond_length : Option ℚ
  pae : Option ℚ
deriving Repr, DecidableEq

/-- The NetworkX undirected graph: nodes keyed by atom index, edges
keyed by unordered index pairs, both in insertion order.  NetworkX
add_edge would insert a missing endpoint as an attribute-free node; the
source only ever passes endpoints that are existing atom indices (RDKit
bond endpoints and representative atom indices), so the model keeps
total attribute records and setEdge below does not create nodes. -/
structure NXGraph where
  nodes : List (Nat × NodeAttrs)
  edges : List ((Nat × Nat) × EdgeAttrs)
deriving Repr, DecidableEq

/-- Whether the unordered pair u,v is the unordered pair a,b. -/
def pairMatches (u v a b : Nat) : Bool :=
  (u == a && v == b) || (u == b && v == a)

/-- NetworkX G[u][v] lookup on the undirected edge set. -/
def NXGraph.lookupEdge (G : NXGraph) (u v : Nat) : Option EdgeAttrs :=
  (G.edges.find? (fun e => pairMatches u v e.1.1 e.1.2)).map (fun e => e.2)

/-- The edge list update of a NetworkX add_edge(u, v, **attrs) call:
merge the given attributes onto the existing unordered edge, else
append a fresh edge. -/
def setEdgeList : List ((Nat × Nat) × EdgeAttrs) → Nat → Nat →
    (Option EdgeAttrs → EdgeAttrs) → List ((Nat × Nat) × EdgeAttrs)
  | [], u, v, f => [((u, v), f none)]
  | e :: rest, u, v, f =>
      if pairMatches u v e.1.1 e.1.2 then (e.1, f (some e.2)) :: rest
      else e :: setEdgeList rest u v f

/-- NetworkX add_edge(u, v, **attrs) on the graph. -/
def NXGraph.setEdge (G : NXGraph) (u v : Nat) (f : Option EdgeAttrs → EdgeAttrs) : NXGraph :=
  { G with edges := setEdgeList G.edges u v f }

/-- NetworkX add_node(i, **attrs). -/
def NXGraph.addNode (G : NXGraph) (i : Nat) (a : NodeAttrs) : NXGraph :=
  { G with nodes := dinsert G.nodes i a }

/-- NetworkX G.nodes[i][key] = value, as an attribute update of node i
(a no-op on an absent key; the source only updates existing nodes). -/
def NXGraph.updateNode (G : NXGraph) (i : Nat) (f : NodeAttrs → NodeAttrs) : NXGraph :=
  { G with nodes := G.nodes.map (fun p => if p.1 == i then (p.1, f p.2) else p) }

/-- The attribute merge of a chemical bond or backbone add_edge call:
set bond_idx, bond_order and bond_length, keep any other key. -/
def mergeBond (bi : Int) (bo bl : ℚ) : Option EdgeAttrs → EdgeAttrs
  | none =>
      { bond_idx := some bi
        bond_order := some bo
        bond_length := some bl
        pae := none }
  | some e =>
      { bond_idx := some bi
        bond_order := some bo
        bond_length := some bl
        pae := e.pae }

/-- The attribute merge of a PAE add_edge call: set pae, keep any other
key. -/
def mergePae (p : ℚ) : Option EdgeAttrs → EdgeAttrs
  | none =>
      { bond_idx := none
        bond_order := none
        bond_length := none
        pae := some p }
  | some e =>
      { bond_idx := e.bond_idx
        bond_order := e.bond_order
        bond_length := e.bond_length
        pae := some p }

/-- Python str.strip() over a character list: drop leading and trailing
whitespace (structural model of String.trim). -/
def stripChars (l : List Char) : List Char :=
  ((l.dropWhile Char.isWhitespace).reverse.dropWhile Char.isWhitespace).reverse

/-- Python str.strip() on a string. -/
def pystrip (s : String) : String :=
  String.mk (stripChars s.data)

/-- The serial number to stripped full atom name dict built by walking
the structure hierarchy (source lines 40-45). -/
def buildSerialAtomDict (s : BStructure) : List (Nat × String) :=
  (allResidues s).foldl
    (fun d res => res.atoms.foldl (fun d a => dinsert d a.serial_number (pystrip a.fullname)) d) []

/-- The node attributes a mol atom is given when it is added. -/
def initAttrs (anm : Option String) (a : RAtom) : NodeAttrs :=
  { atom_name := anm
    atomic_number := a.atomic_number
    atom_coords := CoordVal.pos a.pos
    degree := a.degree
    aromatic := a.aromatic
    residue_number := a.residue_number
    residue_name := a.residue_name
    plddt := none
    secondary_structure := none
    exposure := none
    phi := none
    psi := none
    NH_O_1_relidx := none
    NH_O_1_energy := none
    O_NH_1_relidx := none
    O_NH_1_energy := none
    NH_O_2_relidx := none
    NH_O_2_energy := none
    O_NH_2_relidx := none
    O_NH_2_energy := none }

/-- The atom loop (source lines 51-66): add one node per atom, and
record CA atoms into the residue number to central atom dict. -/
def addAtomsAux (sd : List (Nat × String)) :
    List RAtom → Nat → NXGraph → List (Int × Nat) → NXGraph × List (Int × Nat)
  | [], _, G, rca => (G, rca)
  | a :: rest, i, G, rca =>
      let anm := dget sd a.serial_number
      let G := G.addNode i (initAttrs anm a)
      let rca := if anm == some "CA" then dinsert rca a.residue_number i else rca
      addAtomsAux sd rest (i + 1) G rca

/-- Nodes plus the residue_to_ca_atom dict, from an empty graph. -/
def addAtoms (sd : List (Nat × String)) (m : Mol) : NXGraph × List (Int × Nat) :=
  addAtomsAux sd m.atoms 0 { nodes := [], edges := [] } []

/-- The bond loop (source lines 69-76): one edge per RDKit bond, with
its index, order and conformer bond length. -/
def addBondEdgesAux (dist : Pos → Pos → ℚ) (m : Mol) : List RBond → Nat → NXGraph → NXGraph
  | [], _, G => G
  | b :: rest, bi, G =>
      let d0 : RAtom :=
        { serial_number := 0
          atomic_number := 0
          pos := (0, 0, 0)
          degree := 0
          aromatic := false
          residue_number := 0
          residue_name := "" }
      let bl := dist ((m.atoms.getD b.begin_atom d0).pos) ((m.atoms.getD b.end_atom d0).pos)
      addBondEdgesAux dist m rest (bi + 1)
        (G.setEdge b.begin_atom b.end_atom (mergeBond (Int.ofNat bi) b.bond_order bl))

/-- All chemical bond edges of the molecule. -/
def addBondEdges (dist : Pos → Pos → ℚ) (m : Mol) (G : NXGraph) : NXGraph :=
  addBondEdgesAux dist m m.bonds 0 G

/-- The stored coordinates of a CoordVal (the source only reads them
while they are still positions). -/
def getPos : CoordVal → Pos
  | CoordVal.pos p => p
  | CoordVal.str _ => (0, 0, 0)

/-- The position stored on node i of the graph. -/
def nodePos (G : NXGraph) (i : Nat) : Pos :=
  match dget G.nodes i with
  | some a => getPos a.atom_coords
  | none => (0, 0, 0)

/-- calculate_distance (source lines 79-82): the distance between the
coordinates stored on two nodes. -/
def calculate_distance (dist : Pos → Pos → ℚ) (G : NXGraph) (i j : Nat) : ℚ :=
  dist (nodePos G i) (nodePos G j)

/-- The backbone loop (source lines 85-90): for each central atom dict
item, link it to the central atom of the next residue number when that
one resolves. -/
def addBackboneEdges (dist : Pos → Pos → ℚ) (rca : List (Int × Nat)) (G : NXGraph) : NXGraph :=
  rca.foldl
    (fun G p =>
      match dget rca (p.1 + 1) with
      | none => G
      | some nca => G.setEdge p.2 nca (mergeBond 0 0 (calculate_distance dist G p.2 nca)))
    G

/-- The pLDDT dict loop (source lines 94-100): walk the hierarchy and
read the B-factor of the CA atom of every residue.  A residue with no
CA atom makes the residue item lookup raise KeyError, which nothing
catches. -/
def buildPlddtDict (s : BStructure) : Except String (List (Int × ℚ)) :=
  (allResidues s).foldlM
    (fun d res =>
      match residueCA res with
      | none => Except.error "KeyError: CA"
      | some ca => Except.ok (dinsert d res.resseq ca.bfactor))
    []

/-- The pLDDT node attribute loop (source lines 103-106): set plddt on
every node to the dict .get at the residue number of the same mol
atom. -/
def addPlddtAux (pd : List (Int × ℚ)) : List RAtom → Nat → NXGraph → NXGraph
  | [], _, G => G
  | a :: rest, i, G =>
      addPlddtAux pd rest (i + 1)
        (G.updateNode i (fun n => { n with plddt := some (dget pd a.residue_number) }))

/-- pLDDT attributes over all mol atoms. -/
def addPlddt (m : Mol) (pd : List (Int × ℚ)) (G : NXGraph) : NXGraph :=
  addPlddtAux pd m.atoms 0 G

/-- Reading the PAE matrix out of the side channel file (source lines
110-117 and the matching except clauses): a missing file or a record
list shape failure lands in the generic except, an undecodable file in
the JSONDecodeError clause, a present first record without the required
field raises the ValueError. -/
def getPaeMatrix : PaeFile → Except String (List (List ℚ))
  | PaeFile.missing => Except.error "Unexpected error: open failed"
  | PaeFile.undecodable => Except.error "Cannot decode JSON"
  | PaeFile.decoded [] => Except.error "Unexpected error: list index out of range"
  | PaeFile.decoded (r :: _) =>
      match r.predicted_aligned_error with
      | none => Except.error "No predicted_aligned_error in JSON"
      | some mat => Except.ok mat

/-- The inner PAE loop at row i (source lines 120-127). -/
def paeInner (mat : List (List ℚ)) (rca : List (Int × Nat)) (i : Nat) (G : NXGraph) : NXGraph :=
  (List.range (mat.getD i []).length).foldl
    (fun G j =>
      if i == j then G
      else
        match dget rca ((i : Int) + 1), dget rca ((j : Int) + 1) with
        | some ca_i, some ca_j => G.setEdge ca_i ca_j (mergePae ((mat.getD i []).getD j 0))
        | _, _ => G)
    G

/-- The outer PAE loop (source lines 119-127). -/
def addPaeEdges (mat : List (List ℚ)) (rca : List (Int × Nat)) (G : NXGraph) : NXGraph :=
  (List.range mat.length).foldl (fun G i => paeInner mat rca i G) G

/-- run_dssp (source lines 140-151): the DSSP invocation itself is a
black box input; the dict building loop keys each record by its first
component, the dssp index. -/
def run_dssp (recs : List DsspRecord) : List (Int × DsspRecord) :=
  recs.foldl (fun d r => dinsert d r.dssp_index r) []

/-- The twelve node attributes the DSSP loop copies from a record. -/
def setDsspFields (n : NodeAttrs) (r : DsspRecord) : NodeAttrs :=
  { n with
    secondary_structure := some r.ss
    exposure := some r.exposure
    phi := some r.phi
    psi := some r.psi
    NH_O_1_relidx := some r.NH_O_1_relidx
    NH_O_1_energy := some r.NH_O_1_energy
    O_NH_1_relidx := some r.O_NH_1_relidx
    O_NH_1_energy := some r.O_NH_1_energy
    NH_O_2_relidx := some r.NH_O_2_relidx
    NH_O_2_energy := some r.NH_O_2_energy
    O_NH_2_relidx := some r.O_NH_2_relidx
    O_NH_2_energy := some r.O_NH_2_energy }

/-- The DSSP node loop (source lines 156-176): nodes whose residue
number is a key of the dssp dict get the twelve attributes of that
record; other nodes are untouched. -/
def applyDssp (dd : List (Int × DsspRecord)) (G : NXGraph) : NXGraph :=
  { G with nodes := G.nodes.map (fun p =>
      match dget dd p.2.residue_number with
      | some r => (p.1, setDsspFields p.2 r)
      | none => p) }

/-- The coordinate serialisation loop (source lines 185-188): every
node coordinate becomes its formatted x,y,z string. -/
def serializeCoords (fmt : Pos → String) (G : NXGraph) : NXGraph :=
  { G with nodes := G.nodes.map (fun p =>
      (p.1, { p.2 with atom_coords := CoordVal.str (fmt (getPos p.2.atom_coords)) })) }

/-- The outcome of one per-protein job: the early idempotence return,
a caught error followed by return (PAE clauses, DSSP clause), an
uncaught exception propagating out of the job, or the pickled graph. -/
inductive JobResult where
  | skipped
  | aborted (msg : String)
  | raised (msg : String)
  | wrote (g : NXGraph)
deriving Repr, DecidableEq

/-- The exception text of the MolFromPDBFile None failure path. -/
def molNoneMsg : String := "AttributeError: NoneType object has no attribute UpdatePropertyCache"

/-- The exception text of a PDBParser failure. -/
def structFailMsg : String := "PDBParser exception"

/-- protein_molecule_graphs (source lines 13-192) over already parsed
inputs.  outputExists models the os.path.exists check on the
destination pickle. -/
def protein_molecule_graphs (dist : Pos → Pos → ℚ) (fmt : Pos → String) (include_pae : Bool)
    (inp : JobInput) (outputExists : Bool) : JobResult :=
  if outputExists then JobResult.skipped
  else
    match inp.rmol with
    | none => JobResult.raised molNoneMsg
    | some mol =>
      match inp.pstruct with
      | none => JobResult.raised structFailMsg
      | some s =>
        let sd := buildSerialAtomDict s
        let ar := addAtoms sd mol
        let G := addBondEdges dist mol ar.1
        let G := addBackboneEdges dist ar.2 G
        match buildPlddtDict s with
        | Except.error e => JobResult.raised e
        | Except.ok pd =>
          let G := addPlddt mol pd G
          let paeStep : Except String NXGraph :=
            if include_pae then
              match getPaeMatrix inp.pae with
              | Except.error e => Except.error e
              | Except.ok mat => Except.ok (addPaeEdges mat ar.2 G)
            else Except.ok G
          match paeStep with
          | Except.error e => JobResult.aborted e
          | Except.ok G =>
            match inp.dssp with
            | Except.error e => JobResult.aborted e
            | Except.ok recs =>
              JobResult.wrote (serializeCoords fmt (applyDssp (run_dssp recs) G))

/-- Whether the output directory association list already holds an
artifact of the given name. -/
def artifactExists (fs : List (String × NXGraph)) (n : String) : Bool :=
  (dget fs n).isSome

/-- The worker pool result collection, sequentially: each task runs its
job against the current output directory; a job that raises makes the
eager list(executor.map(...)) collection re-raise in the orchestrator,
so the run stops there; any other outcome lets the remaining tasks
proceed.  The final output directory and the propagated exception, if
any, are returned. -/
def runJobs (dist : Pos → Pos → ℚ) (fmt : Pos → String) (include_pae : Bool) :
    List (String × JobInput) → List (String × NXGraph) →
    List (String × NXGraph) × Option String
  | [], fs => (fs, none)
  | (n, inp) :: rest, fs =>
      match protein_molecule_graphs dist fmt include_pae inp (artifactExists fs n) with
      | JobResult.raised e => (fs, some e)
      | JobResult.wrote g => runJobs dist fmt include_pae rest (fs ++ [(n, g)])
      | _ => runJobs dist fmt include_pae rest fs

/-- The two directories an orchestrator run acts on: the input listing
(protein identifier with its parsed job inputs, in listdir order, the
fixed .pdb and .pkl extensions dropped) and the output listing. -/
structure World where
  inputs : List (String × JobInput)
  outputs : List (String × NXGraph)
deriving Repr, DecidableEq

/-- alpha_nx (source lines 200-221): snapshot the produced artifact
names, filter the input listing against them, then run the remaining
jobs.  The resulting world plus the exception that list() re-raised, if
any, is returned. -/
def alpha_nx (dist : Pos → Pos → ℚ) (fmt : Pos → String) (include_pae : Bool) (w : World) :
    World × Option String :=
  let processed := w.outputs.map (fun p => p.1)
  let tasks := w.inputs.filter (fun t => !(processed.contains t.1))
  let r := runJobs dist fmt include_pae tasks w.outputs
  ({ inputs := w.inputs, outputs := r.1 }, r.2)

/-! ### Simple graph invariant: one edge record per unordered pair -/

/-- At every moment, the edge list holds at most one record per
unordered node pair (NetworkX stores a single attribute dict per
undirected edge). -/
def NoDupEdges (G : NXGraph) : Prop :=
  G.edges.Pairwise (fun e1 e2 => pairMatches e1.1.1 e1.1.2 e2.1.1 e2.1.2 = false)

/-! ### Sequences of add_edge calls -/

/-- A list of pending add_edge calls, applied in order. -/
def applyW : List (Nat × Nat × (Option EdgeAttrs → EdgeAttrs)) → NXGraph → NXGraph
  | [], G => G
  | w :: ws, G => applyW ws (G.setEdge w.1 w.2.1 w.2.2)

/-! ### Dict key uniqueness -/

/-- The keys of an association list are pairwise distinct. -/
def keysNodup {α β : Type} (d : List (α × β)) : Prop := (d.map Prod.fst).Nodup

/-! ### Atom loop characterisation -/

/-- The node list the atom loop appends, starting at a given index. -/
def nodesSpec (sd : List (Nat × String)) : List RAtom → Nat → List (Nat × NodeAttrs)
  | [], _ => []
  | a :: rest, i => (i, initAttrs (dget sd a.serial_number) a) :: nodesSpec sd rest (i + 1)

/-! ### Confidence stage characterisation -/

/-- The pure per-node effect of the pLDDT loop. -/
def plddtUpd (pd : List (Int × ℚ)) : List RAtom → Nat → (Nat × NodeAttrs) → (Nat × NodeAttrs)
  | [], _, p => p
  | a :: rest, i, p =>
      plddtUpd pd rest (i + 1)
        (if p.1 == i then (p.1, { p.2 with plddt := some (dget pd a.residue_number) }) else p)

/-- A default atom record (used only for total list indexing in
proofs). -/
def atomD : RAtom :=
  { serial_number := 0
    atomic_number := 0
    pos := (0, 0, 0)
    degree := 0
    aromatic := false
    residue_number := 0
    residue_name := "" }

/-! ### Backbone stage as a write sequence -/

/-- The add_edge calls the backbone loop performs, with the distances
read off the node coordinates (which no edge write changes). -/
def backboneWrites (dist : Pos → Pos → ℚ) (rca : List (Int × Nat)) (G : NXGraph) :
    List (Nat × Nat × (Option EdgeAttrs → EdgeAttrs)) :=
  rca.filterMap (fun p =>
    match dget rca (p.1 + 1) with
    | none => none
    | some nca => some (p.2, nca, mergeBond 0 0 (calculate_distance dist G p.2 nca)))

/-! ### PAE stage as a write sequence -/

/-- The add_edge calls the inner PAE loop at row i performs. -/
def paeInnerWrites (mat : List (List ℚ)) (rca : List (Int × Nat)) (i : Nat) :
    List (Nat × Nat × (Option EdgeAttrs → EdgeAttrs)) :=
  (List.range (mat.getD i []).length).filterMap (fun j =>
    if i == j then none
    else
      match dget rca ((i : Int) + 1), dget rca ((j : Int) + 1) with
      | some ca_i, some ca_j => some (ca_i, ca_j, mergePae ((mat.getD i []).getD j 0))
      | _, _ => none)

/-- The add_edge calls of the whole PAE stage, in iteration order. -/
def paeWrites (mat : List (List ℚ)) (rca : List (Int × Nat)) :
    List (Nat × Nat × (Option EdgeAttrs → EdgeAttrs)) :=
  ((List.range mat.length).map (paeInnerWrites mat rca)).flatten

/-! ### DSSP stage lemmas -/

/-- How many of the twelve DSSP node attributes are present. -/
def dsspCount (a : NodeAttrs) : Nat :=
  (if a.secondary_structure.isSome then 1 else 0) + (if a.exposure.isSome then 1 else 0) +
  (if a.phi.isSome then 1 else 0) + (if a.psi.isSome then 1 else 0) +
  (if a.NH_O_1_relidx.isSome then 1 else 0) + (if a.NH_O_1_energy.isSome then 1 else 0) +
  (if a.O_NH_1_relidx.isSome then 1 else 0) + (if a.O_NH_1_energy.isSome then 1 else 0) +
  (if a.NH_O_2_relidx.isSome then 1 else 0) + (if a.NH_O_2_energy.isSome then 1 else 0) +
  (if a.O_NH_2_relidx.isSome then 1 else 0) + (if a.O_NH_2_energy.isSome then 1 else 0)

/-- None of the twelve DSSP node attributes is present. -/
def dsspUnset (a : NodeAttrs) : Prop :=
  a.secondary_structure = none ∧ a.exposure = none ∧ a.phi = none ∧ a.psi = none ∧
  a.NH_O_1_relidx = none ∧ a.NH_O_1_energy = none ∧ a.O_NH_1_relidx = none ∧
  a.O_NH_1_energy = none ∧ a.NH_O_2_relidx = none ∧ a.NH_O_2_energy = none ∧
  a.O_NH_2_relidx = none ∧ a.O_NH_2_energy = none

/-! ### PAE stage value lemmas -/

/-- The body of the inner PAE loop as a write producer. -/
def gpae (mat : List (List ℚ)) (rca : List (Int × Nat)) (i j : Nat) :
    Option (Nat × Nat × (Option EdgeAttrs → EdgeAttrs)) :=
  if i == j then none
  else
    match dget rca ((i : Int) + 1), dget rca ((j : Int) + 1) with
    | some ca_i, some ca_j => some (ca_i, ca_j, mergePae ((mat.getD i []).getD j 0))
    | _, _ => none

/-! ### Concrete sample data -/

/-- A distance function for concrete instances. -/
def distZero : Pos → Pos → ℚ := fun _ _ => 0

/-- A coordinate formatter for concrete instances. -/
def fmtEmpty : Pos → String := fun _ => ""

/-- The graph a wrote outcome carries (empty graph otherwise). -/
def wroteGraph : JobResult → NXGraph
  | JobResult.wrote g => g
  | _ => { nodes := [], edges := [] }

/-- Whether a job outcome is a write. -/
def JobResult.isWrote : JobResult → Bool
  | JobResult.wrote _ => true
  | _ => false

/-- A two atom molecule: the CA atoms of residues 1 and 2. -/
def atomA : RAtom :=
  { serial_number := 1
    atomic_number := 6
    pos := (0, 0, 0)
    degree := 0
    aromatic := false
    residue_number := 1
    residue_name := "GLY" }

/-- The second sample atom (residue 2). -/
def atomB : RAtom :=
  { serial_number := 2
    atomic_number := 6
    pos := (1, 0, 0)
    degree := 0
    aromatic := false
    residue_number := 2
    residue_name := "GLY" }

/-- The two atom sample molecule, without chemical bonds. -/
def molAB : Mol := { atoms := [atomA, atomB], bonds := [] }

/-- The structure-side CA atom of residue 1. -/
def batom1 : BAtom := { name := "CA", fullname := " CA ", serial_number := 1, bfactor := 90 }

/-- The structure-side CA atom of residue 2. -/
def batom2 : BAtom := { name := "CA", fullname := " CA ", serial_number := 2, bfactor := 80 }

/-- Sample residue 1. -/
def res1 : BResidue := { resseq := 1, atoms := [batom1] }

/-- Sample residue 2. -/
def res2 : BResidue := { resseq := 2, atoms := [batom2] }

/-- The two residue sample structure. -/
def structAB : BStructure := { models := [{ chains := [{ residues := [res1, res2] }] }] }

/-- The serial atom dict of the sample structure. -/
def sdAB : List (Nat × String) := buildSerialAtomDict structAB

/-- The pLDDT dict of the sample structure. -/
def pdAB : List (Int × ℚ) := [(1, 90), (2, 80)]

/-- A fully healthy job input; its PAE matrix is asymmetric. -/
def goodInp : JobInput :=
  { rmol := some molAB
    pstruct := some structAB
    pae := PaeFile.decoded [{ predicted_aligned_error := some [[0, 1], [2, 0]] }]
    dssp := Except.ok [] }

/-- A job input whose structure file the molecule parser rejects. -/
def badInp : JobInput :=
  { rmol := none
    pstruct := none
    pae := PaeFile.missing
    dssp := Except.ok [] }

/-- A batch world with one unparseable input before one healthy one. -/
def wC2 : World := { inputs := [("a", badInp), ("b", goodInp)], outputs := [] }

/-- A structure atom that is not a CA atom. -/
def batomN : BAtom := { name := "N", fullname := " N  ", serial_number := 1, bfactor := 70 }

/-- A residue with no CA atom (as a ligand or water residue). -/
def resNoCA : BResidue := { resseq := 1, atoms := [batomN] }

/-- A structure holding a residue with no CA atom. -/
def structNoCA : BStructure := { models := [{ chains := [{ residues := [resNoCA] }] }] }

/-- A single atom molecule matching structNoCA. -/
def molN : Mol :=
  { atoms := [{ serial_number := 1
                atomic_number := 7
                pos := (0, 0, 0)
                degree := 0
                aromatic := false
                residue_number := 1
                residue_name := "HOH" }]
    bonds := [] }

/-- A job input whose structure has a residue with no CA atom. -/
def inpNoCA : JobInput :=
  { rmol := some molN
    pstruct := some structNoCA
    pae := PaeFile.missing
    dssp := Except.ok [] }

/-- goodInp with a failing DSSP run. -/
def inpDsspErr : JobInput :=
  { rmol := some molAB
    pstruct := some structAB
    pae := PaeFile.missing
    dssp := Except.error "DSSP failed" }

/-- goodInp with a PAE file that lacks the required field. -/
def inpPaeNoField : JobInput :=
  { rmol := some molAB
    pstruct := some structAB
    pae := PaeFile.decoded [{ predicted_aligned_error := none }]
    dssp := Except.ok [] }

/-- A DSSP record for dssp index 1. -/
def rec1 : DsspRecord :=
  { dssp_index := 1
    aa := "G"
    ss := "H"
    exposure := 1/2
    phi := -60
    psi := -45
    NH_O_1_relidx := -4
    NH_O_1_energy := -2
    O_NH_1_relidx := 4
    O_NH_1_energy := -2
    NH_O_2_relidx := 0
    NH_O_2_energy := 0
    O_NH_2_relidx := 0
    O_NH_2_energy := 0 }

/-- A one artifact world for the idempotence witness. -/
def wC1 : World :=
  { inputs := [("p", goodInp)]
    outputs := [("p", { nodes := [], edges := [] })] }

/-- A one node graph whose node is residue 1, before the DSSP stage. -/
def gC4 : NXGraph := { nodes := [(0, initAttrs (some "CA") atomA)], edges := [] }

/-- The empty graph, for concrete instances. -/
def gEmpty : NXGraph := { nodes := [], edges := [] }

/-- A one bond graph for the merge witness. -/
def gBond : NXGraph :=
  { nodes := []
    edges := [((0, 1),
      { bond_idx := some 5
        bond_order := some 1
        bond_length := some 2
        pae := none })] }

/-! ### Dictionary lemmas -/

theorem dget_nil {α β : Type} [BEq α] (k : α) : dget ([] : List (α × β)) k = none := rfl

theorem dget_cons {α β : Type} [BEq α] (p : α × β) (d : List (α × β)) (k : α) :
    dget (p :: d) k = if p.1 == k then some p.2 else dget d k := by
  by_cases h : p.1 == k <;> simp [dget, List.find?_cons, h]

theorem dget_mem {α β : Type} [BEq α] {d : List (α × β)} {k : α} {v : β}
    (h : dget d k = some v) : (k, v) ∈ d ∨ ∃ p ∈ d, p.2 = v ∧ p.1 == k := by
  induction d with
  | nil => simp [dget] at h
  | cons p rest ih =>
      rw [dget_cons] at h
      by_cases hp : p.1 == k
      · simp [hp] at h
        right
        exact ⟨p, List.mem_cons_self p rest, h, hp⟩
      · simp [hp] at h
        rcases ih h with h1 | ⟨q, hq, hv, hk⟩
        · exact Or.inl (List.mem_cons_of_mem p h1)
        · exact Or.inr ⟨q, List.mem_cons_of_mem p hq, hv, hk⟩

theorem dget_mem_lawful {α β : Type} [DecidableEq α] {d : List (α × β)} {k : α} {v : β}
    (h : dget d k = some v) : (k, v) ∈ d := by
  rcases dget_mem h with h1 | ⟨p, hp, hv, hk⟩
  · exact h1
  · have : p.1 = k := by simpa using hk
    have : p = (k, v) := by
      cases p; simp_all
    rwa [this] at hp

theorem mem_dinsert {α β : Type} [BEq α] {d : List (α × β)} {k : α} {v : β} {q : α × β}
    (h : q ∈ dinsert d k v) : q = (k, v) ∨ q ∈ d := by
  induction d with
  | nil => simpa [dinsert] using h
  | cons p rest ih =>
      rw [dinsert] at h
      by_cases hp : p.1 == k
      · simp [hp] at h
        rcases h with h | h
        · exact Or.inl h
        · exact Or.inr (List.mem_cons_of_mem p h)
      · simp [hp] at h
        rcases h with h | h
        · exact Or.inr (by simp [h])
        · rcases ih h with h1 | h1
          · exact Or.inl h1
          · exact Or.inr (List.mem_cons_of_mem p h1)

theorem dget_dinsert_self {α β : Type} [DecidableEq α] (d : List (α × β)) (k : α) (v : β) :
    dget (dinsert d k v) k = some v := by
  induction d with
  | nil => simp [dinsert, dget_cons]
  | cons p rest ih =>
      rw [dinsert]
      by_cases hp : p.1 == k
      · simp [hp, dget_cons]
      · rw [if_neg (by simpa using hp), dget_cons, if_neg (by simpa using hp)]
        exact ih

theorem dget_dinsert_ne {α β : Type} [DecidableEq α] (d : List (α × β)) (k k' : α) (v : β)
    (h : k ≠ k') : dget (dinsert d k v) k' = dget d k' := by
  induction d with
  | nil => simp [dinsert, dget_cons, dget_nil, h]
  | cons p rest ih =>
      rw [dinsert]
      by_cases hp : p.1 == k
      · have hpk : p.1 = k := by simpa using hp
        rw [if_pos hp, dget_cons, dget_cons]
        simp only [hpk]
        rw [if_neg (by simpa using h), if_neg (by simpa using h)]
      · rw [if_neg hp, dget_cons, dget_cons]
        by_cases hq : p.1 == k'
        · simp [hq]
        · rw [if_neg hq, if_neg hq]
          exact ih

/-! ### Unordered pair lemmas -/

theorem pairMatches_iff {u v a b : Nat} :
    pairMatches u v a b = true ↔ (u = a ∧ v = b) ∨ (u = b ∧ v = a) := by
  simp [pairMatches, Bool.or_eq_true, Bool.and_eq_true, beq_iff_eq]

theorem pairMatches_comm (u v a b : Nat) : pairMatches u v a b = pairMatches a b u v := by
  by_cases h : pairMatches u v a b = true
  · rw [h]
    rcases pairMatches_iff.mp h with ⟨h1, h2⟩ | ⟨h1, h2⟩ <;>
      exact (pairMatches_iff.mpr (by omega)).symm
  · have h' : pairMatches u v a b = false := by simpa using h
    rw [h']
    by_cases hb : pairMatches a b u v = true
    · exfalso
      rcases pairMatches_iff.mp hb with ⟨h1, h2⟩ | ⟨h1, h2⟩ <;>
        exact h (pairMatches_iff.mpr (by omega))
    · simpa using fun hh => hb hh

theorem pairMatches_trans {a b u v x y : Nat} (h : pairMatches a b u v = true) :
    pairMatches a b x y = pairMatches u v x y := by
  rcases pairMatches_iff.mp h with ⟨h1, h2⟩ | ⟨h1, h2⟩
  · rw [h1, h2]
  · rw [h1, h2]
    by_cases hx : pairMatches v u x y = true
    · rw [hx]
      rcases pairMatches_iff.mp hx with ⟨g1, g2⟩ | ⟨g1, g2⟩ <;>
        exact (pairMatches_iff.mpr (by omega)).symm
    · have hx' : pairMatches v u x y = false := by simpa using hx
      rw [hx']
      by_cases hy : pairMatches u v x y = true
      · exfalso
        rcases pairMatches_iff.mp hy with ⟨g1, g2⟩ | ⟨g1, g2⟩ <;>
          exact hx (pairMatches_iff.mpr (by omega))
      · simpa using fun hh => hy hh

theorem pairMatches_self (u v : Nat) : pairMatches u v u v = true := by
  simp [pairMatches_iff]

theorem pairMatches_self_ne {u a b : Nat} (hab : a ≠ b) : pairMatches u u a b = false := by
  by_cases h : pairMatches u u a b = true
  · rcases pairMatches_iff.mp h with ⟨h1, h2⟩ | ⟨h1, h2⟩ <;> omega
  · simpa using h

/-! ### Edge update lemmas -/

theorem setEdge_nodes (G : NXGraph) (u v : Nat) (f : Option EdgeAttrs → EdgeAttrs) :
    (G.setEdge u v f).nodes = G.nodes := rfl

theorem find_setEdgeList_match {a b u v : Nat} (h : pairMatches a b u v = true)
    (f : Option EdgeAttrs → EdgeAttrs) :
    ∀ l : List ((Nat × Nat) × EdgeAttrs),
      ((setEdgeList l u v f).find? (fun e => pairMatches a b e.1.1 e.1.2)).map (fun e => e.2)
        = some (f ((l.find? (fun e => pairMatches u v e.1.1 e.1.2)).map (fun e => e.2)))
  | [] => by
      simp [setEdgeList, List.find?_cons, h]
  | e :: rest => by
      rw [setEdgeList]
      by_cases hm : pairMatches u v e.1.1 e.1.2
      · have hab : pairMatches a b e.1.1 e.1.2 = true := by
          have := pairMatches_trans h (x := e.1.1) (y := e.1.2)
          rw [this]
          exact hm
        rw [if_pos hm]
        simp [List.find?_cons, hab, hm]
      · have hab : pairMatches a b e.1.1 e.1.2 = false := by
          have := pairMatches_trans h (x := e.1.1) (y := e.1.2)
          rw [this]
          simpa using hm
        rw [if_neg hm]
        simp only [List.find?_cons, hab, hm]
        exact find_setEdgeList_match h f rest

theorem find_setEdgeList_nomatch {a b u v : Nat} (h : pairMatches a b u v = false)
    (f : Option EdgeAttrs → EdgeAttrs) :
    ∀ l : List ((Nat × Nat) × EdgeAttrs),
      (setEdgeList l u v f).find? (fun e => pairMatches a b e.1.1 e.1.2)
        = l.find? (fun e => pairMatches a b e.1.1 e.1.2)
  | [] => by
      simp [setEdgeList, List.find?_cons, h]
  | e :: rest => by
      rw [setEdgeList]
      by_cases hm : pairMatches u v e.1.1 e.1.2
      · have hab : pairMatches a b e.1.1 e.1.2 = false := by
          have h1 := pairMatches_trans hm (x := a) (y := b)
          have h2 : pairMatches u v a b = false := by rw [pairMatches_comm]; exact h
          have h3 : pairMatches e.1.1 e.1.2 a b = false := by rw [← h1]; exact h2
          rw [pairMatches_comm]; exact h3
        rw [if_pos hm]
        simp only [List.find?_cons, hab]
      · rw [if_neg hm]
        simp only [List.find?_cons]
        by_cases hab : pairMatches a b e.1.1 e.1.2
        · simp only [hab]
        · simp only [Bool.not_eq_true] at hab
          simp only [hab]
          exact find_setEdgeList_nomatch h f rest

theorem lookupEdge_setEdge_match {a b u v : Nat} (h : pairMatches a b u v = true)
    (G : NXGraph) (f : Option EdgeAttrs → EdgeAttrs) :
    (G.setEdge u v f).lookupEdge a b = some (f (G.lookupEdge u v)) := by
  unfold NXGraph.setEdge NXGraph.lookupEdge
  exact find_setEdgeList_match h f G.edges

theorem lookupEdge_setEdge_nomatch {a b u v : Nat} (h : pairMatches a b u v = false)
    (G : NXGraph) (f : Option EdgeAttrs → EdgeAttrs) :
    (G.setEdge u v f).lookupEdge a b = G.lookupEdge a b := by
  unfold NXGraph.setEdge NXGraph.lookupEdge
  rw [find_setEdgeList_nomatch h f G.edges]

theorem lookupEdge_congr {a b u v : Nat} (h : pairMatches a b u v = true) (G : NXGraph) :
    G.lookupEdge a b = G.lookupEdge u v := by
  unfold NXGraph.lookupEdge
  have hf : (fun e : (Nat × Nat) × EdgeAttrs => pairMatches a b e.1.1 e.1.2)
      = (fun e => pairMatches u v e.1.1 e.1.2) := by
    funext e
    exact pairMatches_trans h
  rw [hf]

theorem mem_setEdgeList_keys {u v : Nat} {f : Option EdgeAttrs → EdgeAttrs} :
    ∀ (l : List ((Nat × Nat) × EdgeAttrs)) (x : (Nat × Nat) × EdgeAttrs),
      x ∈ setEdgeList l u v f → x.1 = (u, v) ∨ ∃ y ∈ l, x.1 = y.1
  | [], x => by
      intro hx
      simp [setEdgeList] at hx
      simp [hx]
  | e :: rest, x => by
      intro hx
      rw [setEdgeList] at hx
      by_cases hm : pairMatches u v e.1.1 e.1.2
      · rw [if_pos hm] at hx
        rcases List.mem_cons.mp hx with hx | hx
        · exact Or.inr ⟨e, List.mem_cons_self e rest, by rw [hx]⟩
        · exact Or.inr ⟨x, List.mem_cons_of_mem e hx, rfl⟩
      · rw [if_neg hm] at hx
        rcases List.mem_cons.mp hx with hx | hx
        · exact Or.inr ⟨e, List.mem_cons_self e rest, by rw [hx]⟩
        · rcases mem_setEdgeList_keys rest x hx with h1 | ⟨y, hy, hxy⟩
          · exact Or.inl h1
          · exact Or.inr ⟨y, List.mem_cons_of_mem e hy, hxy⟩

theorem setEdgeList_pairwise {u v : Nat} {f : Option EdgeAttrs → EdgeAttrs} :
    ∀ l : List ((Nat × Nat) × EdgeAttrs),
      l.Pairwise (fun e1 e2 => pairMatches e1.1.1 e1.1.2 e2.1.1 e2.1.2 = false) →
      (setEdgeList l u v f).Pairwise
        (fun e1 e2 => pairMatches e1.1.1 e1.1.2 e2.1.1 e2.1.2 = false)
  | [], _ => by simp [setEdgeList]
  | e :: rest, hp => by
      rw [setEdgeList]
      rcases List.pairwise_cons.mp hp with ⟨hhead, htail⟩
      by_cases hm : pairMatches u v e.1.1 e.1.2
      · rw [if_pos hm]
        exact List.pairwise_cons.mpr ⟨hhead, htail⟩
      · rw [if_neg hm]
        refine List.pairwise_cons.mpr ⟨?_, setEdgeList_pairwise rest htail⟩
        intro x hx
        rcases mem_setEdgeList_keys rest x hx with h1 | ⟨y, hy, hxy⟩
        · rw [h1]
          rw [pairMatches_comm]
          simpa using hm
        · rw [hxy]
          exact hhead y hy

theorem noDupEdges_setEdge {G : NXGraph} {u v : Nat} {f : Option EdgeAttrs → EdgeAttrs}
    (h : NoDupEdges G) : NoDupEdges (G.setEdge u v f) :=
  setEdgeList_pairwise G.edges h

theorem noDupEdges_empty : NoDupEdges { nodes := [], edges := [] } := by
  simp [NoDupEdges]

theorem filter_single_of_pairwise {a b : Nat} {e : EdgeAttrs} :
    ∀ l : List ((Nat × Nat) × EdgeAttrs),
      l.Pairwise (fun e1 e2 => pairMatches e1.1.1 e1.1.2 e2.1.1 e2.1.2 = false) →
      (l.find? (fun x => pairMatches a b x.1.1 x.1.2)).map (fun x => x.2) = some e →
      ∃ k, l.filter (fun x => pairMatches a b x.1.1 x.1.2) = [(k, e)] ∧
        pairMatches a b k.1 k.2 = true
  | [], _, he => by simp at he
  | x :: rest, h, he => by
      rcases List.pairwise_cons.mp h with ⟨hhead, htail⟩
      by_cases hx : pairMatches a b x.1.1 x.1.2
      · refine ⟨x.1, ?_, hx⟩
        simp only [List.find?_cons, hx] at he
        have hrest : rest.filter (fun y => pairMatches a b y.1.1 y.1.2) = [] := by
          apply List.filter_eq_nil_iff.mpr
          intro y hy
          have h1 := hhead y hy
          have h2 := pairMatches_trans hx (x := y.1.1) (y := y.1.2)
          rw [h2, h1]
          simp
        have hxe : x.2 = e := by
          simpa using he
        simp [List.filter_cons, hx, hrest, ← hxe]
      · have hx' : pairMatches a b x.1.1 x.1.2 = false := by simpa using hx
        simp only [List.find?_cons, hx'] at he
        rw [List.filter_cons_of_neg (by simp [hx'])]
        exact filter_single_of_pairwise rest htail he

/-- In a graph with no duplicate pair records, a successful lookup is
the unique edge record of its unordered pair. -/
theorem filter_single_of_noDup {G : NXGraph} {a b : Nat} {e : EdgeAttrs}
    (h : NoDupEdges G) (he : G.lookupEdge a b = some e) :
    ∃ k, G.edges.filter (fun x => pairMatches a b x.1.1 x.1.2) = [(k, e)] ∧
      pairMatches a b k.1 k.2 = true :=
  filter_single_of_pairwise G.edges h he

theorem applyW_append (ws1 ws2 : List (Nat × Nat × (Option EdgeAttrs → EdgeAttrs)))
    (G : NXGraph) : applyW (ws1 ++ ws2) G = applyW ws2 (applyW ws1 G) := by
  induction ws1 generalizing G with
  | nil => rfl
  | cons w ws ih => simp [applyW, ih]

theorem applyW_nodes (ws : List (Nat × Nat × (Option EdgeAttrs → EdgeAttrs))) (G : NXGraph) :
    (applyW ws G).nodes = G.nodes := by
  induction ws generalizing G with
  | nil => rfl
  | cons w ws ih => simp [applyW, ih, setEdge_nodes]

theorem applyW_noDup {ws : List (Nat × Nat × (Option EdgeAttrs → EdgeAttrs))} {G : NXGraph}
    (h : NoDupEdges G) : NoDupEdges (applyW ws G) := by
  induction ws generalizing G with
  | nil => exact h
  | cons w ws ih => exact ih (noDupEdges_setEdge h)

theorem applyW_lookup_nomatch {a b : Nat}
    {ws : List (Nat × Nat × (Option EdgeAttrs → EdgeAttrs))} {G : NXGraph}
    (h : ∀ w ∈ ws, pairMatches a b w.1 w.2.1 = false) :
    (applyW ws G).lookupEdge a b = G.lookupEdge a b := by
  induction ws generalizing G with
  | nil => rfl
  | cons w ws ih =>
      rw [applyW]
      rw [ih (fun x hx => h x (List.mem_cons_of_mem w hx))]
      exact lookupEdge_setEdge_nomatch (h w (List.mem_cons_self w ws)) G w.2.2

/-- The value of an unordered pair after a write sequence whose last
matching write is the given one. -/
theorem applyW_lookup_last {a b : Nat} {w : Nat × Nat × (Option EdgeAttrs → EdgeAttrs)}
    {ws1 ws2 : List (Nat × Nat × (Option EdgeAttrs → EdgeAttrs))} {G : NXGraph}
    (hm : pairMatches a b w.1 w.2.1 = true)
    (h2 : ∀ x ∈ ws2, pairMatches a b x.1 x.2.1 = false) :
    (applyW (ws1 ++ w :: ws2) G).lookupEdge a b
      = some (w.2.2 ((applyW ws1 G).lookupEdge w.1 w.2.1)) := by
  rw [applyW_append]
  rw [show w :: ws2 = [w] ++ ws2 from rfl, applyW_append]
  rw [applyW_lookup_nomatch h2]
  rw [show applyW [w] (applyW ws1 G) = (applyW ws1 G).setEdge w.1 w.2.1 w.2.2 from rfl]
  exact lookupEdge_setEdge_match hm (applyW ws1 G) w.2.2

/-- A fold of conditional add_edge steps is the write sequence the
condition filters out. -/
theorem foldl_filterMap_applyW {α : Type} (l : List α)
    (g : α → Option (Nat × Nat × (Option EdgeAttrs → EdgeAttrs))) (G : NXGraph) :
    l.foldl
      (fun G x =>
        match g x with
        | some w => G.setEdge w.1 w.2.1 w.2.2
        | none => G)
      G = applyW (l.filterMap g) G := by
  induction l generalizing G with
  | nil => rfl
  | cons x rest ih =>
      rw [List.foldl_cons, List.filterMap_cons]
      cases hx : g x with
      | none => simp only [hx]; exact ih G
      | some w => simp only [hx, applyW]; exact ih _

theorem foldl_applyW_flatten (ls : List (List (Nat × Nat × (Option EdgeAttrs → EdgeAttrs))))
    (G : NXGraph) :
    ls.foldl (fun G l => applyW l G) G = applyW ls.flatten G := by
  induction ls generalizing G with
  | nil => rfl
  | cons l rest ih =>
      rw [List.foldl_cons, List.flatten_cons, applyW_append]
      exact ih _

/-! ### Generic fold preservation helpers -/

theorem foldl_preserves_nodes {α : Type} (step : NXGraph → α → NXGraph)
    (h : ∀ G x, (step G x).nodes = G.nodes) :
    ∀ (l : List α) (G : NXGraph), (l.foldl step G).nodes = G.nodes
  | [], _ => rfl
  | x :: rest, G => by
      rw [List.foldl_cons, foldl_preserves_nodes step h rest (step G x), h]

theorem foldl_preserves_noDup {α : Type} (step : NXGraph → α → NXGraph)
    (h : ∀ G x, NoDupEdges G → NoDupEdges (step G x)) :
    ∀ (l : List α) (G : NXGraph), NoDupEdges G → NoDupEdges (l.foldl step G)
  | [], _, hG => hG
  | x :: rest, G, hG => by
      rw [List.foldl_cons]
      exact foldl_preserves_noDup step h rest (step G x) (h G x hG)

theorem keys_dinsert {α β : Type} [BEq α] {d : List (α × β)} {k x : α} {v : β}
    (h : x ∈ (dinsert d k v).map Prod.fst) : x = k ∨ x ∈ d.map Prod.fst := by
  rcases List.mem_map.mp h with ⟨q, hq, hx⟩
  rcases mem_dinsert hq with h1 | h1
  · left
    rw [← hx, h1]
  · right
    exact List.mem_map.mpr ⟨q, h1, hx⟩

theorem dinsert_keysNodup {α β : Type} [DecidableEq α] {k : α} {v : β} :
    ∀ {d : List (α × β)}, keysNodup d → keysNodup (dinsert d k v)
  | [], _ => by simp [dinsert, keysNodup]
  | p :: rest, h => by
      rw [dinsert]
      rcases List.nodup_cons.mp h with ⟨hp, hrest⟩
      by_cases hk : p.1 == k
      · rw [if_pos hk]
        have : p.1 = k := by simpa using hk
        rw [keysNodup, List.map_cons]
        exact List.nodup_cons.mpr ⟨by rw [← this]; exact hp, hrest⟩
      · rw [if_neg hk]
        rw [keysNodup, List.map_cons]
        refine List.nodup_cons.mpr ⟨?_, dinsert_keysNodup hrest⟩
        intro hmem
        rcases keys_dinsert hmem with h1 | h1
        · have hne : p.1 ≠ k := by simpa using hk
          exact hne h1
        · exact hp h1

theorem dget_of_mem_nodup {α β : Type} [DecidableEq α] :
    ∀ {d : List (α × β)} {k : α} {v : β}, keysNodup d → (k, v) ∈ d → dget d k = some v
  | [], _, _, _, hm => by simp at hm
  | p :: rest, k, v, h, hm => by
      rcases List.nodup_cons.mp h with ⟨hp, hrest⟩
      rcases List.mem_cons.mp hm with hm | hm
      · rw [← hm, dget_cons, if_pos (by simp)]
      · have hk : p.1 ≠ k := by
          intro he
          exact hp (List.mem_map.mpr ⟨(k, v), hm, by rw [he]⟩)
        rw [dget_cons, if_neg (by simpa using hk)]
        exact dget_of_mem_nodup hrest hm

theorem dinsert_fresh {α β : Type} [BEq α] :
    ∀ {d : List (α × β)} {k : α} {v : β}, (∀ p ∈ d, (p.1 == k) = false) →
      dinsert d k v = d ++ [(k, v)]
  | [], _, _, _ => rfl
  | p :: rest, k, v, h => by
      rw [dinsert, if_neg (by simp [h p (List.mem_cons_self p rest)])]
      rw [dinsert_fresh (fun q hq => h q (List.mem_cons_of_mem p hq))]
      rfl

theorem addAtomsAux_nodes (sd : List (Nat × String)) :
    ∀ (l : List RAtom) (i : Nat) (G : NXGraph) (rca : List (Int × Nat)),
      (∀ p ∈ G.nodes, p.1 < i) →
      (addAtomsAux sd l i G rca).1.nodes = G.nodes ++ nodesSpec sd l i
  | [], i, G, rca, _ => by simp [addAtomsAux, nodesSpec]
  | a :: rest, i, G, rca, h => by
      rw [addAtomsAux, nodesSpec]
      have hfresh : ∀ p ∈ G.nodes, (p.1 == i) = false := by
        intro p hp
        have := h p hp
        simp
        omega
      have hnodes : (G.addNode i (initAttrs (dget sd a.serial_number) a)).nodes
          = G.nodes ++ [(i, initAttrs (dget sd a.serial_number) a)] := by
        unfold NXGraph.addNode
        exact dinsert_fresh hfresh
      have hlt : ∀ p ∈ (G.addNode i (initAttrs (dget sd a.serial_number) a)).nodes,
          p.1 < i + 1 := by
        intro p hp
        rw [hnodes] at hp
        rcases List.mem_append.mp hp with hp | hp
        · have := h p hp
          omega
        · simp at hp
          rw [hp]
          exact Nat.lt_succ_self i
      rw [addAtomsAux_nodes sd rest (i + 1) _ _ hlt, hnodes]
      simp

theorem nodesSpec_map_fst (sd : List (Nat × String)) :
    ∀ (l : List RAtom) (i : Nat),
      (nodesSpec sd l i).map Prod.fst = (List.range l.length).map (fun k => i + k)
  | [], _ => by simp [nodesSpec]
  | a :: rest, i => by
      rw [nodesSpec, List.map_cons, nodesSpec_map_fst sd rest (i + 1)]
      rw [List.length_cons, List.range_succ_eq_map]
      simp only [List.map_cons, List.map_map, Nat.add_zero]
      congr 1
      apply List.map_congr_left
      intro k _
      simp only [Function.comp_apply]
      omega

theorem mem_nodesSpec (sd : List (Nat × String)) :
    ∀ {l : List RAtom} {i : Nat} {p : Nat × NodeAttrs}, p ∈ nodesSpec sd l i →
      ∃ (k : Nat) (hk : k < l.length),
        p = (i + k, initAttrs (dget sd (l.get ⟨k, hk⟩).serial_number) (l.get ⟨k, hk⟩))
  | [], _, _, hp => by simp [nodesSpec] at hp
  | a :: rest, i, p, hp => by
      rw [nodesSpec] at hp
      rcases List.mem_cons.mp hp with hp | hp
      · exact ⟨0, by simp, by simpa using hp⟩
      · rcases mem_nodesSpec sd hp with ⟨k, hk, hpk⟩
        refine ⟨k + 1, by simpa using hk, ?_⟩
        rw [hpk]
        simp
        omega

/-- The invariant the atom loop keeps on the central atom dict: every
recorded index is an already added node whose residue number is the
dict key. -/
theorem addAtomsAux_rca (sd : List (Nat × String)) :
    ∀ (l : List RAtom) (i : Nat) (G : NXGraph) (rca : List (Int × Nat)),
      (∀ p ∈ G.nodes, p.1 < i) →
      (∀ q ∈ rca, q.2 < i ∧ ∃ att, dget G.nodes q.2 = some att ∧ att.residue_number = q.1) →
      keysNodup rca →
      ∀ q ∈ (addAtomsAux sd l i G rca).2,
        ∃ att, dget (addAtomsAux sd l i G rca).1.nodes q.2 = some att ∧
          att.residue_number = q.1
  | [], i, G, rca, _, hrca, _, q, hq => (hrca q hq).2
  | a :: rest, i, G, rca, hG, hrca, hnd, q, hq => by
      rw [addAtomsAux] at hq ⊢
      set att0 := initAttrs (dget sd a.serial_number) a with hatt0
      have hG1 : ∀ p ∈ (G.addNode i att0).nodes, p.1 < i + 1 := by
        intro p hp
        unfold NXGraph.addNode at hp
        rcases mem_dinsert hp with hp | hp
        · rw [hp]; omega
        · have := hG p hp; omega
      have hget1 : ∀ j, j ≠ i → dget (G.addNode i att0).nodes j = dget G.nodes j := by
        intro j hj
        unfold NXGraph.addNode
        exact dget_dinsert_ne G.nodes i j att0 (fun he => hj he.symm)
      have hgetI : dget (G.addNode i att0).nodes i = some att0 := by
        unfold NXGraph.addNode
        exact dget_dinsert_self G.nodes i att0
      by_cases hca : (dget sd a.serial_number == some "CA") = true
      · rw [if_pos hca] at hq ⊢
        refine addAtomsAux_rca sd rest (i + 1) _ _ hG1 ?_ (dinsert_keysNodup hnd) q hq
        intro q hqm
        rcases mem_dinsert hqm with hqm | hqm
        · refine ⟨by rw [hqm]; omega, att0, ?_, by rw [hqm, hatt0]; rfl⟩
          rw [hqm]
          exact hgetI
        · rcases hrca q hqm with ⟨hlt, att, hga, hrn⟩
          exact ⟨by omega, att, by rw [hget1 q.2 (by omega)]; exact hga, hrn⟩
      · rw [if_neg hca] at hq ⊢
        refine addAtomsAux_rca sd rest (i + 1) _ _ hG1 ?_ hnd q hq
        intro q hqm
        rcases hrca q hqm with ⟨hlt, att, hga, hrn⟩
        exact ⟨by omega, att, by rw [hget1 q.2 (by omega)]; exact hga, hrn⟩

theorem addAtomsAux_rca_nodup (sd : List (Nat × String)) :
    ∀ (l : List RAtom) (i : Nat) (G : NXGraph) (rca : List (Int × Nat)),
      keysNodup rca → keysNodup (addAtomsAux sd l i G rca).2
  | [], _, _, _, h => h
  | a :: rest, i, G, rca, h => by
      rw [addAtomsAux]
      by_cases hca : (dget sd a.serial_number == some "CA") = true
      · rw [if_pos hca]
        exact addAtomsAux_rca_nodup sd rest (i + 1) _ _ (dinsert_keysNodup h)
      · rw [if_neg hca]
        exact addAtomsAux_rca_nodup sd rest (i + 1) _ _ h

/-- Two residue numbers resolving to the same central atom are equal:
the recorded node determines its residue number. -/
theorem rca_inj (sd : List (Nat × String)) (m : Mol) {r r' : Int} {c : Nat}
    (h1 : dget (addAtoms sd m).2 r = some c) (h2 : dget (addAtoms sd m).2 r' = some c) :
    r = r' := by
  have hm1 := dget_mem_lawful h1
  have hm2 := dget_mem_lawful h2
  have hbase : ∀ q ∈ ([] : List (Int × Nat)), q.2 < 0 ∧
      ∃ att, dget ({ nodes := [], edges := [] } : NXGraph).nodes q.2 = some att ∧
        att.residue_number = q.1 := by
    intro q hq
    simp at hq
  have key := addAtomsAux_rca sd m.atoms 0 { nodes := [], edges := [] } []
    (by intro p hp; simp at hp) hbase (by simp [keysNodup])
  rcases key (r, c) hm1 with ⟨att1, hg1, hr1⟩
  rcases key (r', c) hm2 with ⟨att2, hg2, hr2⟩
  have hatt : att1 = att2 := by
    have := hg1.symm.trans hg2
    injection this
  have hr1' : att1.residue_number = r := hr1
  have hr2' : att2.residue_number = r' := hr2
  rw [← hr1', ← hr2', hatt]

theorem addPlddtAux_nodes (pd : List (Int × ℚ)) :
    ∀ (l : List RAtom) (i : Nat) (G : NXGraph),
      (addPlddtAux pd l i G).nodes = G.nodes.map (plddtUpd pd l i)
  | [], _, G => by simp [addPlddtAux, plddtUpd]
  | a :: rest, i, G => by
      rw [addPlddtAux, addPlddtAux_nodes pd rest (i + 1)]
      unfold NXGraph.updateNode
      rw [List.map_map]
      rfl

theorem addPlddtAux_edges (pd : List (Int × ℚ)) :
    ∀ (l : List RAtom) (i : Nat) (G : NXGraph), (addPlddtAux pd l i G).edges = G.edges
  | [], _, _ => rfl
  | a :: rest, i, G => addPlddtAux_edges pd rest (i + 1) _

theorem plddtUpd_eq (pd : List (Int × ℚ)) :
    ∀ (l : List RAtom) (i : Nat) (p : Nat × NodeAttrs),
      plddtUpd pd l i p =
        if i ≤ p.1 ∧ p.1 - i < l.length then
          (p.1, { p.2 with plddt := some (dget pd ((l.getD (p.1 - i) atomD).residue_number)) })
        else p
  | [], i, p => by
      rw [plddtUpd, if_neg]
      intro h
      exact Nat.not_lt_zero _ h.2
  | a :: rest, i, p => by
      rw [plddtUpd]
      by_cases hpi : p.1 = i
      · rw [if_pos (by simp [hpi])]
        rw [plddtUpd_eq pd rest (i + 1)]
        rw [if_neg (by
          show ¬(i + 1 ≤ (p.1, { p.2 with plddt := some (dget pd a.residue_number) }).1 ∧ _)
          simp only []
          omega)]
        rw [if_pos (by
          show i ≤ p.1 ∧ p.1 - i < rest.length + 1
          omega)]
        have h0 : p.1 - i = 0 := by omega
        rw [h0, List.getD_cons_zero]
      · rw [if_neg (by simp [hpi])]
        rw [plddtUpd_eq pd rest (i + 1)]
        by_cases hc : i + 1 ≤ p.1 ∧ p.1 - (i + 1) < rest.length
        · rw [if_pos hc]
          rw [if_pos (by
            show i ≤ p.1 ∧ p.1 - i < rest.length + 1
            omega)]
          have hs : p.1 - i = (p.1 - (i + 1)) + 1 := by omega
          rw [hs, List.getD_cons_succ]
        · rw [if_neg hc]
          rw [if_neg (by
            show ¬(i ≤ p.1 ∧ p.1 - i < rest.length + 1)
            intro hcon
            exact hc ⟨by omega, by omega⟩)]

/-! ### Stage shape lemmas -/

theorem nodePos_congr {G G0 : NXGraph} (h : G.nodes = G0.nodes) (i : Nat) :
    nodePos G i = nodePos G0 i := by
  unfold nodePos
  rw [h]

theorem addBondEdgesAux_nodes (dist : Pos → Pos → ℚ) (m : Mol) :
    ∀ (l : List RBond) (bi : Nat) (G : NXGraph), (addBondEdgesAux dist m l bi G).nodes = G.nodes
  | [], _, _ => rfl
  | b :: rest, bi, G => by
      rw [addBondEdgesAux, addBondEdgesAux_nodes dist m rest (bi + 1)]
      rfl

theorem addBondEdgesAux_noDup (dist : Pos → Pos → ℚ) (m : Mol) :
    ∀ (l : List RBond) (bi : Nat) (G : NXGraph),
      NoDupEdges G → NoDupEdges (addBondEdgesAux dist m l bi G)
  | [], _, _, h => h
  | b :: rest, bi, G, h =>
      addBondEdgesAux_noDup dist m rest (bi + 1) _ (noDupEdges_setEdge h)

theorem backbone_aux (dist : Pos → Pos → ℚ) (rca : List (Int × Nat)) :
    ∀ (l : List (Int × Nat)) (G0 G : NXGraph), G.nodes = G0.nodes →
      l.foldl
        (fun G p =>
          match dget rca (p.1 + 1) with
          | none => G
          | some nca => G.setEdge p.2 nca (mergeBond 0 0 (calculate_distance dist G p.2 nca)))
        G
      = applyW
          (l.filterMap (fun p =>
            match dget rca (p.1 + 1) with
            | none => none
            | some nca => some (p.2, nca, mergeBond 0 0 (calculate_distance dist G0 p.2 nca))))
          G
  | [], G0, G, _ => rfl
  | p :: rest, G0, G, h => by
      rw [List.foldl_cons, List.filterMap_cons]
      cases hd : dget rca (p.1 + 1) with
      | none =>
          simp only []
          exact backbone_aux dist rca rest G0 G h
      | some nca =>
          simp only []
          have hdist : calculate_distance dist G p.2 nca = calculate_distance dist G0 p.2 nca := by
            unfold calculate_distance
            rw [nodePos_congr h, nodePos_congr h]
          rw [hdist, applyW]
          exact backbone_aux dist rca rest G0 _ (by rw [setEdge_nodes]; exact h)

theorem addBackboneEdges_eq (dist : Pos → Pos → ℚ) (rca : List (Int × Nat)) (G : NXGraph) :
    addBackboneEdges dist rca G = applyW (backboneWrites dist rca G) G := by
  unfold addBackboneEdges backboneWrites
  exact backbone_aux dist rca rca G G rfl

theorem addBackboneEdges_nodes (dist : Pos → Pos → ℚ) (rca : List (Int × Nat)) (G : NXGraph) :
    (addBackboneEdges dist rca G).nodes = G.nodes := by
  rw [addBackboneEdges_eq, applyW_nodes]

theorem addBackboneEdges_noDup {dist : Pos → Pos → ℚ} {rca : List (Int × Nat)} {G : NXGraph}
    (h : NoDupEdges G) : NoDupEdges (addBackboneEdges dist rca G) := by
  rw [addBackboneEdges_eq]
  exact applyW_noDup h

/-- A fold whose step acts as a conditional add_edge is the applyW of
the filtered write list. -/
theorem foldl_congr_applyW {α : Type} (l : List α) (step : NXGraph → α → NXGraph)
    (g : α → Option (Nat × Nat × (Option EdgeAttrs → EdgeAttrs))) (G : NXGraph)
    (h : ∀ (G' : NXGraph) (x : α),
      step G' x = match g x with
        | some w => G'.setEdge w.1 w.2.1 w.2.2
        | none => G') :
    l.foldl step G = applyW (l.filterMap g) G := by
  induction l generalizing G with
  | nil => rfl
  | cons x rest ih =>
      rw [List.foldl_cons, List.filterMap_cons, h G x]
      cases hx : g x with
      | none =>
          simp only [hx]
          exact ih G
      | some w =>
          simp only [hx, applyW]
          exact ih _

theorem paeInner_eq (mat : List (List ℚ)) (rca : List (Int × Nat)) (i : Nat) (G : NXGraph) :
    paeInner mat rca i G = applyW (paeInnerWrites mat rca i) G := by
  unfold paeInner paeInnerWrites
  apply foldl_congr_applyW
  intro G' j
  by_cases hij : i == j
  · simp [hij]
  · simp only [hij, Bool.false_eq_true, if_false]
    cases dget rca ((i : Int) + 1) <;> cases dget rca ((j : Int) + 1) <;> rfl

theorem addPaeEdges_eq (mat : List (List ℚ)) (rca : List (Int × Nat)) (G : NXGraph) :
    addPaeEdges mat rca G = applyW (paeWrites mat rca) G := by
  unfold addPaeEdges paeWrites
  rw [← foldl_applyW_flatten, List.foldl_map]
  have hstep : (fun (G : NXGraph) (i : Nat) => paeInner mat rca i G)
      = fun G i => applyW (paeInnerWrites mat rca i) G := by
    funext G i
    exact paeInner_eq mat rca i G
  rw [hstep]

theorem addPaeEdges_nodes (mat : List (List ℚ)) (rca : List (Int × Nat)) (G : NXGraph) :
    (addPaeEdges mat rca G).nodes = G.nodes := by
  rw [addPaeEdges_eq, applyW_nodes]

theorem addPaeEdges_noDup {mat : List (List ℚ)} {rca : List (Int × Nat)} {G : NXGraph}
    (h : NoDupEdges G) : NoDupEdges (addPaeEdges mat rca G) := by
  rw [addPaeEdges_eq]
  exact applyW_noDup h

/-! ### DSSP and serialisation stage shapes -/

theorem applyDssp_edges (dd : List (Int × DsspRecord)) (G : NXGraph) :
    (applyDssp dd G).edges = G.edges := rfl

theorem serializeCoords_edges (fmt : Pos → String) (G : NXGraph) :
    (serializeCoords fmt G).edges = G.edges := rfl

theorem applyDssp_nodes_fst (dd : List (Int × DsspRecord)) (G : NXGraph) :
    (applyDssp dd G).nodes.map Prod.fst = G.nodes.map Prod.fst := by
  unfold applyDssp
  rw [List.map_map]
  apply List.map_congr_left
  intro p _
  simp only [Function.comp_apply]
  cases h : dget dd p.2.residue_number <;> simp [h]

theorem serializeCoords_nodes_fst (fmt : Pos → String) (G : NXGraph) :
    (serializeCoords fmt G).nodes.map Prod.fst = G.nodes.map Prod.fst := by
  unfold serializeCoords
  rw [List.map_map]
  rfl

theorem addPlddt_nodes_fst (m : Mol) (pd : List (Int × ℚ)) (G : NXGraph) :
    (addPlddt m pd G).nodes.map Prod.fst = G.nodes.map Prod.fst := by
  unfold addPlddt
  rw [addPlddtAux_nodes, List.map_map]
  apply List.map_congr_left
  intro p _
  simp only [Function.comp_apply]
  rw [plddtUpd_eq]
  split <;> rfl

/-! ### Orchestrator lemmas -/

theorem dget_append_left {α β : Type} [BEq α] :
    ∀ {fs d : List (α × β)} {n : α}, (dget fs n).isSome → dget (fs ++ d) n = dget fs n
  | [], _, _, h => by simp [dget] at h
  | p :: rest, d, n, h => by
      rw [List.cons_append, dget_cons, dget_cons]
      by_cases hp : p.1 == n
      · rw [if_pos hp, if_pos hp]
      · rw [if_neg hp, if_neg hp]
        rw [dget_cons, if_neg hp] at h
        exact dget_append_left h

theorem dget_append_right {α β : Type} [BEq α] :
    ∀ {fs d : List (α × β)} {n : α}, dget fs n = none → dget (fs ++ d) n = dget d n
  | [], _, _, _ => rfl
  | p :: rest, d, n, h => by
      rw [List.cons_append, dget_cons]
      rw [dget_cons] at h
      by_cases hp : p.1 == n
      · rw [if_pos hp] at h
        simp at h
      · rw [if_neg hp]
        rw [if_neg hp] at h
        exact dget_append_right h

/-- A job given an existing artifact is skipped, whatever its input. -/
theorem job_exists_skipped (dist : Pos → Pos → ℚ) (fmt : Pos → String) (ip : Bool)
    (inp : JobInput) :
    protein_molecule_graphs dist fmt ip inp true = JobResult.skipped := rfl

/-- A dispatched job (artifact absent) never reports the skip outcome. -/
theorem job_false_ne_skipped (dist : Pos → Pos → ℚ) (fmt : Pos → String) (ip : Bool)
    (inp : JobInput) :
    protein_molecule_graphs dist fmt ip inp false ≠ JobResult.skipped := by
  intro h
  unfold protein_molecule_graphs at h
  rw [if_neg (by simp)] at h
  revert h
  cases inp.rmol with
  | none => intro h; simp at h
  | some mol =>
    cases inp.pstruct with
    | none => intro h; simp at h
    | some s =>
      simp only []
      cases buildPlddtDict s with
      | error e => intro h; simp at h
      | ok pd =>
        simp only []
        cases hip : ip with
        | true =>
            simp only [if_true]
            cases getPaeMatrix inp.pae with
            | error e => intro h; simp at h
            | ok mat =>
                simp only []
                cases inp.dssp with
                | error e => intro h; simp at h
                | ok recs => intro h; simp at h
        | false =>
            simp only [Bool.false_eq_true, if_false]
            cases inp.dssp with
            | error e => intro h; simp at h
            | ok recs => intro h; simp at h

theorem runJobs_grow (dist : Pos → Pos → ℚ) (fmt : Pos → String) (ip : Bool) :
    ∀ (ts : List (String × JobInput)) (fs : List (String × NXGraph)),
      ∃ d, (runJobs dist fmt ip ts fs).1 = fs ++ d
  | [], fs => ⟨[], by simp [runJobs]⟩
  | (n, inp) :: rest, fs => by
      rw [runJobs]
      cases hj : protein_molecule_graphs dist fmt ip inp (artifactExists fs n) with
      | skipped => exact runJobs_grow dist fmt ip rest fs
      | aborted e => exact runJobs_grow dist fmt ip rest fs
      | raised e => exact ⟨[], by simp⟩
      | wrote g =>
          rcases runJobs_grow dist fmt ip rest (fs ++ [(n, g)]) with ⟨d, hd⟩
          exact ⟨(n, g) :: d, by rw [hd, List.append_assoc]; rfl⟩

theorem artifactExists_runJobs_mono {dist : Pos → Pos → ℚ} {fmt : Pos → String} {ip : Bool}
    {ts : List (String × JobInput)} {fs : List (String × NXGraph)} {n : String}
    (h : artifactExists fs n = true) :
    artifactExists (runJobs dist fmt ip ts fs).1 n = true := by
  rcases runJobs_grow dist fmt ip ts fs with ⟨d, hd⟩
  unfold artifactExists at h ⊢
  rw [hd, dget_append_left (by simp only [Option.isSome] at h ⊢; exact h)]
  exact h

theorem dget_runJobs_preserved {dist : Pos → Pos → ℚ} {fmt : Pos → String} {ip : Bool}
    {ts : List (String × JobInput)} {fs : List (String × NXGraph)} {n : String}
    (h : (dget fs n).isSome) :
    dget (runJobs dist fmt ip ts fs).1 n = dget fs n := by
  rcases runJobs_grow dist fmt ip ts fs with ⟨d, hd⟩
  rw [hd, dget_append_left h]

/-- Re-running the pending tasks against the final output directory
reproduces the run: artifacts suppress their jobs, failures repeat. -/
theorem runJobs_idem (dist : Pos → Pos → ℚ) (fmt : Pos → String) (ip : Bool) :
    ∀ (ts : List (String × JobInput)) (fs fs' : List (String × NXGraph)) (e : Option String),
      runJobs dist fmt ip ts fs = (fs', e) →
      runJobs dist fmt ip (ts.filter (fun t => !(artifactExists fs' t.1))) fs' = (fs', e)
  | [], fs, fs', e, h => by
      rw [runJobs] at h
      injection h with h1 h2
      rw [List.filter_nil, ← h1, ← h2, runJobs]
  | (n, inp) :: rest, fs, fs', e, h => by
      rw [runJobs] at h
      rw [List.filter_cons]
      cases hj : protein_molecule_graphs dist fmt ip inp (artifactExists fs n) with
      | skipped =>
          rw [hj] at h
          have h2 : runJobs dist fmt ip rest fs = (fs', e) := h
          have hex : artifactExists fs n = true := by
            cases hb : artifactExists fs n with
            | true => rfl
            | false =>
                rw [hb] at hj
                exact absurd hj (job_false_ne_skipped dist fmt ip inp)
          have hex' : artifactExists fs' n = true := by
            have hmono := @artifactExists_runJobs_mono dist fmt ip rest _ _ hex
            rw [h2] at hmono
            exact hmono
          rw [if_neg (by simp [hex'])]
          exact runJobs_idem dist fmt ip rest fs fs' e h2
      | aborted msg =>
          rw [hj] at h
          have h2 : runJobs dist fmt ip rest fs = (fs', e) := h
          have hex : artifactExists fs n = false := by
            cases hb : artifactExists fs n with
            | false => rfl
            | true =>
                rw [hb] at hj
                rw [job_exists_skipped] at hj
                exact absurd hj.symm (by simp)
          have hjf : protein_molecule_graphs dist fmt ip inp false = JobResult.aborted msg := by
            rw [hex] at hj
            exact hj
          cases hb' : artifactExists fs' n with
          | true =>
              rw [if_neg (by simp [hb'])]
              exact runJobs_idem dist fmt ip rest fs fs' e h2
          | false =>
              rw [if_pos (by simp [hb'])]
              rw [runJobs, hb', hjf]
              exact runJobs_idem dist fmt ip rest fs fs' e h2
      | raised msg =>
          rw [hj] at h
          have h2 : (fs, some msg) = (fs', e) := h
          injection h2 with hfs he
          subst hfs
          subst he
          have hex : artifactExists fs n = false := by
            cases hb : artifactExists fs n with
            | false => rfl
            | true =>
                rw [hb] at hj
                rw [job_exists_skipped] at hj
                exact absurd hj.symm (by simp)
          have hjf : protein_molecule_graphs dist fmt ip inp false = JobResult.raised msg := by
            rw [hex] at hj
            exact hj
          rw [if_pos (by simp [hex])]
          rw [runJobs, hex, hjf]
      | wrote g =>
          rw [hj] at h
          have h2 : runJobs dist fmt ip rest (fs ++ [(n, g)]) = (fs', e) := h
          have hex : artifactExists fs n = false := by
            cases hb : artifactExists fs n with
            | false => rfl
            | true =>
                rw [hb] at hj
                rw [job_exists_skipped] at hj
                exact absurd hj.symm (by simp)
          have hmid : artifactExists (fs ++ [(n, g)]) n = true := by
            unfold artifactExists
            rw [dget_append_right (by unfold artifactExists at hex; simpa using hex)]
            simp [dget_cons]
          have hex' : artifactExists fs' n = true := by
            have hmono := @artifactExists_runJobs_mono dist fmt ip rest _ _ hmid
            rw [h2] at hmono
            exact hmono
          rw [if_neg (by simp [hex'])]
          exact runJobs_idem dist fmt ip rest (fs ++ [(n, g)]) fs' e h2

theorem artifactExists_eq_contains (fs : List (String × NXGraph)) (n : String) :
    (fs.map (fun p => p.1)).contains n = artifactExists fs n := by
  induction fs with
  | nil => rfl
  | cons p rest ih =>
      unfold artifactExists
      rw [List.map_cons, dget_cons]
      by_cases hp : p.1 = n
      · simp [hp, List.contains_cons]
      · have h1 : (p.1 == n) = false := by simpa using hp
        have h2 : (n == p.1) = false := by
          cases hb : (n == p.1) with
          | false => rfl
          | true =>
              have hnp : n = p.1 := by simpa using hb
              exact absurd hnp.symm hp
        rw [List.contains_cons, h2, if_neg (by simp [h1])]
        rw [Bool.false_or]
        unfold artifactExists at ih
        exact ih

/-- Running the orchestrator a second time on the world the first run
produced changes nothing and reports the same exception, if any. -/
theorem alpha_nx_idem (dist : Pos → Pos → ℚ) (fmt : Pos → String) (ip : Bool) (w : World) :
    alpha_nx dist fmt ip (alpha_nx dist fmt ip w).1 = alpha_nx dist fmt ip w := by
  cases hres : runJobs dist fmt ip
      (w.inputs.filter (fun t => !((w.outputs.map (fun p => p.1)).contains t.1))) w.outputs with
  | mk fs' e =>
    have halpha : alpha_nx dist fmt ip w = ({ inputs := w.inputs, outputs := fs' }, e) := by
      simp only [alpha_nx]
      rw [hres]
    rw [halpha]
    simp only [alpha_nx]
    have hfix : ∀ (l : List (String × JobInput)) (fsx : List (String × NXGraph)),
        l.filter (fun t => !((fsx.map (fun p => p.1)).contains t.1))
          = l.filter (fun t => !(artifactExists fsx t.1)) := by
      intro l fsx
      apply List.filter_congr
      intro t _
      rw [artifactExists_eq_contains]
    have hmono : ∀ t : String × JobInput, artifactExists fs' t.1 = false →
        artifactExists w.outputs t.1 = false := by
      intro t ht
      cases hb : artifactExists w.outputs t.1 with
      | false => rfl
      | true =>
          have hmono2 := @artifactExists_runJobs_mono dist fmt ip
            (w.inputs.filter (fun t => !((w.outputs.map (fun p => p.1)).contains t.1))) _ _ hb
          rw [hres] at hmono2
          simp only [] at hmono2
          rw [hmono2] at ht
          exact absurd ht (by simp)
    have htasks : w.inputs.filter (fun t => !(artifactExists fs' t.1))
        = (w.inputs.filter
            (fun t => !((w.outputs.map (fun p => p.1)).contains t.1))).filter
            (fun t => !(artifactExists fs' t.1)) := by
      rw [hfix w.inputs w.outputs]
      rw [List.filter_filter]
      apply List.filter_congr
      intro t _
      cases hb : artifactExists fs' t.1 with
      | false =>
          have h0 := hmono t hb
          simp [h0, hb]
      | true => simp [hb]
    have hidem := runJobs_idem dist fmt ip _ w.outputs fs' e hres
    rw [hfix w.inputs fs', htasks, hidem]

/-! ### Assembled graph corollaries -/

theorem addAtoms_nodes (sd : List (Nat × String)) (m : Mol) :
    (addAtoms sd m).1.nodes = nodesSpec sd m.atoms 0 := by
  unfold addAtoms
  rw [addAtomsAux_nodes sd m.atoms 0 _ _ (by intro p hp; simp at hp)]
  simp

theorem addAtoms_nodes_fst (sd : List (Nat × String)) (m : Mol) :
    (addAtoms sd m).1.nodes.map Prod.fst = List.range m.atoms.length := by
  rw [addAtoms_nodes, nodesSpec_map_fst]
  have hid : (fun k => 0 + k) = fun (k : Nat) => k := by
    funext k
    omega
  rw [hid]
  simp

theorem addAtoms_rca_mem (sd : List (Nat × String)) (m : Mol) {q : Int × Nat}
    (hq : q ∈ (addAtoms sd m).2) :
    ∃ att, dget (addAtoms sd m).1.nodes q.2 = some att ∧ att.residue_number = q.1 := by
  unfold addAtoms at hq ⊢
  exact addAtomsAux_rca sd m.atoms 0 _ [] (by intro p hp; simp at hp)
    (by intro p hp; simp at hp) (by simp [keysNodup]) q hq

theorem addAtoms_rca_nodup (sd : List (Nat × String)) (m : Mol) :
    keysNodup (addAtoms sd m).2 := by
  unfold addAtoms
  exact addAtomsAux_rca_nodup sd m.atoms 0 _ [] (by simp [keysNodup])

/-! ### Per-protein job pipeline equations -/

theorem job_wrote_no_pae (dist : Pos → Pos → ℚ) (fmt : Pos → String) {inp : JobInput}
    {mol : Mol} {s : BStructure} {pd : List (Int × ℚ)} {recs : List DsspRecord}
    (hm : inp.rmol = some mol) (hs : inp.pstruct = some s)
    (hpd : buildPlddtDict s = Except.ok pd) (hd : inp.dssp = Except.ok recs) :
    protein_molecule_graphs dist fmt false inp false =
      JobResult.wrote (serializeCoords fmt (applyDssp (run_dssp recs)
        (addPlddt mol pd (addBackboneEdges dist (addAtoms (buildSerialAtomDict s) mol).2
          (addBondEdges dist mol (addAtoms (buildSerialAtomDict s) mol).1))))) := by
  unfold protein_molecule_graphs
  rw [if_neg (by simp), hm, hs]
  simp only [hpd, hd, Bool.false_eq_true, if_false]

theorem job_wrote_with_pae (dist : Pos → Pos → ℚ) (fmt : Pos → String) {inp : JobInput}
    {mol : Mol} {s : BStructure} {pd : List (Int × ℚ)} {mat : List (List ℚ)}
    {recs : List DsspRecord}
    (hm : inp.rmol = some mol) (hs : inp.pstruct = some s)
    (hpd : buildPlddtDict s = Except.ok pd) (hpm : getPaeMatrix inp.pae = Except.ok mat)
    (hd : inp.dssp = Except.ok recs) :
    protein_molecule_graphs dist fmt true inp false =
      JobResult.wrote (serializeCoords fmt (applyDssp (run_dssp recs)
        (addPaeEdges mat (addAtoms (buildSerialAtomDict s) mol).2
          (addPlddt mol pd (addBackboneEdges dist (addAtoms (buildSerialAtomDict s) mol).2
            (addBondEdges dist mol (addAtoms (buildSerialAtomDict s) mol).1)))))) := by
  unfold protein_molecule_graphs
  rw [if_neg (by simp), hm, hs]
  simp only [hpd, hpm, hd, if_true]

theorem job_pae_aborted (dist : Pos → Pos → ℚ) (fmt : Pos → String) {inp : JobInput}
    {mol : Mol} {s : BStructure} {pd : List (Int × ℚ)} {e : String}
    (hm : inp.rmol = some mol) (hs : inp.pstruct = some s)
    (hpd : buildPlddtDict s = Except.ok pd) (hpm : getPaeMatrix inp.pae = Except.error e) :
    protein_molecule_graphs dist fmt true inp false = JobResult.aborted e := by
  unfold protein_molecule_graphs
  rw [if_neg (by simp), hm, hs]
  simp only [hpd, hpm, if_true]

theorem job_dssp_aborted_no_pae (dist : Pos → Pos → ℚ) (fmt : Pos → String) {inp : JobInput}
    {mol : Mol} {s : BStructure} {pd : List (Int × ℚ)} {e : String}
    (hm : inp.rmol = some mol) (hs : inp.pstruct = some s)
    (hpd : buildPlddtDict s = Except.ok pd) (hd : inp.dssp = Except.error e) :
    protein_molecule_graphs dist fmt false inp false = JobResult.aborted e := by
  unfold protein_molecule_graphs
  rw [if_neg (by simp), hm, hs]
  simp only [hpd, hd, Bool.false_eq_true, if_false]

theorem job_dssp_aborted_with_pae (dist : Pos → Pos → ℚ) (fmt : Pos → String) {inp : JobInput}
    {mol : Mol} {s : BStructure} {pd : List (Int × ℚ)} {mat : List (List ℚ)} {e : String}
    (hm : inp.rmol = some mol) (hs : inp.pstruct = some s)
    (hpd : buildPlddtDict s = Except.ok pd) (hpm : getPaeMatrix inp.pae = Except.ok mat)
    (hd : inp.dssp = Except.error e) :
    protein_molecule_graphs dist fmt true inp false = JobResult.aborted e := by
  unfold protein_molecule_graphs
  rw [if_neg (by simp), hm, hs]
  simp only [hpd, hpm, hd, if_true]

theorem job_mol_none_raised (dist : Pos → Pos → ℚ) (fmt : Pos → String) (ip : Bool)
    {inp : JobInput} (hm : inp.rmol = none) :
    protein_molecule_graphs dist fmt ip inp false = JobResult.raised molNoneMsg := by
  unfold protein_molecule_graphs
  rw [if_neg (by simp), hm]

theorem job_plddt_raised (dist : Pos → Pos → ℚ) (fmt : Pos → String) (ip : Bool)
    {inp : JobInput} {mol : Mol} {s : BStructure} {e : String}
    (hm : inp.rmol = some mol) (hs : inp.pstruct = some s)
    (hpd : buildPlddtDict s = Except.error e) :
    protein_molecule_graphs dist fmt ip inp false = JobResult.raised e := by
  unfold protein_molecule_graphs
  rw [if_neg (by simp), hm, hs]
  simp only [hpd]

/-- A write only happens when the skip check, both parses, the pLDDT
dict, the PAE stage (when enabled) and the DSSP stage all went
through. -/
theorem job_wrote_inv (dist : Pos → Pos → ℚ) (fmt : Pos → String) (ip : Bool)
    (inp : JobInput) (b : Bool) (g : NXGraph)
    (h : protein_molecule_graphs dist fmt ip inp b = JobResult.wrote g) :
    b = false ∧ inp.rmol.isSome ∧ inp.pstruct.isSome ∧
      (∀ s, inp.pstruct = some s → ∃ pd, buildPlddtDict s = Except.ok pd) ∧
      (ip = true → ∃ mat, getPaeMatrix inp.pae = Except.ok mat) ∧
      (∃ recs, inp.dssp = Except.ok recs) := by
  cases b with
  | true =>
      rw [job_exists_skipped] at h
      exact absurd h (by simp)
  | false =>
      refine ⟨rfl, ?_⟩
      unfold protein_molecule_graphs at h
      rw [if_neg (by simp)] at h
      revert h
      cases hmol : inp.rmol with
      | none => intro h; simp at h
      | some mol =>
        cases hst : inp.pstruct with
        | none => intro h; simp at h
        | some s =>
          simp only []
          cases hpd : buildPlddtDict s with
          | error e => intro h; simp at h
          | ok pd =>
            simp only []
            cases hip : ip with
            | true =>
                simp only [if_true]
                cases hpm : getPaeMatrix inp.pae with
                | error e => intro h; simp at h
                | ok mat =>
                    simp only []
                    cases hd : inp.dssp with
                    | error e => intro h; simp at h
                    | ok recs =>
                        intro h
                        refine ⟨by simp, by simp, ?_, ?_, ⟨recs, rfl⟩⟩
                        · intro s' hs'
                          injection hs' with hs'
                          rw [← hs']
                          exact ⟨pd, hpd⟩
                        · intro _
                          exact ⟨mat, rfl⟩
            | false =>
                simp only [Bool.false_eq_true, if_false]
                cases hd : inp.dssp with
                | error e => intro h; simp at h
                | ok recs =>
                    intro h
                    refine ⟨by simp, by simp, ?_, by simp, ⟨recs, rfl⟩⟩
                    intro s' hs'
                    injection hs' with hs'
                    rw [← hs']
                    exact ⟨pd, hpd⟩

/-! ### Confidence stage lemmas -/

/-- After the pLDDT loop over a freshly assembled node list, every node
carries plddt = pLDDT dict .get at its own residue number. -/
theorem addPlddt_plddt {mol : Mol} {sd : List (Nat × String)} {pd : List (Int × ℚ)}
    {G : NXGraph} (hG : G.nodes = nodesSpec sd mol.atoms 0) :
    ∀ p ∈ (addPlddt mol pd G).nodes, p.2.plddt = some (dget pd p.2.residue_number) := by
  intro p hp
  unfold addPlddt at hp
  rw [addPlddtAux_nodes, hG] at hp
  rcases List.mem_map.mp hp with ⟨q, hq, hpq⟩
  rcases mem_nodesSpec sd hq with ⟨k, hk, hqk⟩
  have hq1 : q.1 = k := by
    rw [hqk]
    simp
  have hcond : 0 ≤ q.1 ∧ q.1 - 0 < mol.atoms.length := by
    constructor
    · exact Nat.zero_le _
    · rw [hq1]
      simpa using hk
  have hrn : (mol.atoms.getD (q.1 - 0) atomD).residue_number = q.2.residue_number := by
    rw [hqk]
    simp only []
    have hidx : (0 + k - 0) = k := by omega
    rw [hidx, List.getD_eq_getElem _ _ (by simpa using hk)]
    simp [initAttrs]
  rw [← hpq, plddtUpd_eq, if_pos hcond]
  simp only []
  rw [hrn]

/-- Every entry of the pLDDT dict is the B-factor of the CA atom of a
walked residue, keyed by that residue number. -/
theorem plddt_fold_mem :
    ∀ (l : List BResidue) (d0 d : List (Int × ℚ)),
      (l.foldlM
        (fun d res =>
          match residueCA res with
          | none => Except.error "KeyError: CA"
          | some ca => Except.ok (dinsert d res.resseq ca.bfactor))
        d0) = Except.ok d →
      ∀ q ∈ d, q ∈ d0 ∨
        ∃ res ∈ l, res.resseq = q.1 ∧ ∃ ca, residueCA res = some ca ∧ ca.bfactor = q.2
  | [], d0, d, h, q, hq => by
      rw [List.foldlM_nil] at h
      injection h with h
      rw [← h] at hq
      exact Or.inl hq
  | res :: rest, d0, d, h, q, hq => by
      rw [List.foldlM_cons] at h
      revert h
      cases hca : residueCA res with
      | none =>
          intro h
          exact absurd (h : (Except.error "KeyError: CA" : Except String (List (Int × ℚ)))
            = Except.ok d) (by intro hh; exact Except.noConfusion hh)
      | some ca =>
          intro h
          have h2 : rest.foldlM
              (fun d res =>
                match residueCA res with
                | none => Except.error "KeyError: CA"
                | some ca => Except.ok (dinsert d res.resseq ca.bfactor))
              (dinsert d0 res.resseq ca.bfactor) = Except.ok d := h
          rcases plddt_fold_mem rest _ d h2 q hq with hq1 | ⟨r2, hr2, hrs, ca2, hca2, hb2⟩
          · rcases mem_dinsert hq1 with hq2 | hq2
            · exact Or.inr ⟨res, List.mem_cons_self res rest, by rw [hq2],
                ca, hca, by rw [hq2]⟩
            · exact Or.inl hq2
          · exact Or.inr ⟨r2, List.mem_cons_of_mem res hr2, hrs, ca2, hca2, hb2⟩

theorem buildPlddtDict_mem {s : BStructure} {pd : List (Int × ℚ)}
    (h : buildPlddtDict s = Except.ok pd) :
    ∀ q ∈ pd, ∃ res ∈ allResidues s, res.resseq = q.1 ∧
      ∃ ca, residueCA res = some ca ∧ ca.bfactor = q.2 := by
  intro q hq
  rcases plddt_fold_mem (allResidues s) [] pd h q hq with h1 | h1
  · simp at h1
  · exact h1

/-- A walked residue with no CA atom makes the pLDDT loop raise. -/
theorem plddt_fold_error :
    ∀ (l : List BResidue) (d0 : List (Int × ℚ)) (res : BResidue),
      res ∈ l → residueCA res = none →
      ∃ e, (l.foldlM
        (fun d res =>
          match residueCA res with
          | none => Except.error "KeyError: CA"
          | some ca => Except.ok (dinsert d res.resseq ca.bfactor))
        d0) = Except.error e
  | [], _, _, hm, _ => by simp at hm
  | r :: rest, d0, res, hm, hca => by
      rw [List.foldlM_cons]
      cases hr : residueCA r with
      | none => exact ⟨"KeyError: CA", rfl⟩
      | some ca =>
          rcases List.mem_cons.mp hm with hm | hm
          · rw [← hm] at hr
            rw [hca] at hr
            exact absurd hr (by simp)
          · rcases plddt_fold_error rest (dinsert d0 r.resseq ca.bfactor) res hm hca with ⟨e, he⟩
            exact ⟨e, he⟩

theorem buildPlddtDict_error {s : BStructure} {res : BResidue}
    (hm : res ∈ allResidues s) (hca : residueCA res = none) :
    ∃ e, buildPlddtDict s = Except.error e :=
  plddt_fold_error (allResidues s) [] res hm hca

theorem dsspUnset_initAttrs (anm : Option String) (a : RAtom) : dsspUnset (initAttrs anm a) := by
  unfold dsspUnset initAttrs
  simp

theorem dsspUnset_count {a : NodeAttrs} (h : dsspUnset a) : dsspCount a = 0 := by
  rcases h with ⟨h1, h2, h3, h4, h5, h6, h7, h8, h9, h10, h11, h12⟩
  unfold dsspCount
  rw [h1, h2, h3, h4, h5, h6, h7, h8, h9, h10, h11, h12]
  simp

theorem dsspCount_setDsspFields (a : NodeAttrs) (r : DsspRecord) :
    dsspCount (setDsspFields a r) = 12 := by
  unfold dsspCount setDsspFields
  simp

/-- The DSSP node loop: a node whose residue number is a dict key gets
exactly the twelve record attributes; all other nodes are untouched. -/
theorem applyDssp_spec (dd : List (Int × DsspRecord)) (G : NXGraph) :
    ∀ p ∈ (applyDssp dd G).nodes,
      ∃ q ∈ G.nodes, p.1 = q.1 ∧ p.2.residue_number = q.2.residue_number ∧
        ((∃ r, dget dd q.2.residue_number = some r ∧ p.2 = setDsspFields q.2 r) ∨
          (dget dd q.2.residue_number = none ∧ p.2 = q.2)) := by
  intro p hp
  unfold applyDssp at hp
  rcases List.mem_map.mp hp with ⟨q, hq, hpq⟩
  refine ⟨q, hq, ?_⟩
  revert hpq
  cases hr : dget dd q.2.residue_number with
  | none =>
      intro hpq
      rw [← hpq]
      exact ⟨rfl, rfl, Or.inr ⟨rfl, rfl⟩⟩
  | some r =>
      intro hpq
      rw [← hpq]
      refine ⟨rfl, ?_, Or.inl ⟨r, rfl, rfl⟩⟩
      unfold setDsspFields
      simp

/-! ### Backbone edge value lemmas -/

theorem rca_entry_dget {sd : List (Nat × String)} {mol : Mol} {q : Int × Nat}
    (hq : q ∈ (addAtoms sd mol).2) :
    dget (addAtoms sd mol).2 q.1 = some q.2 := by
  have hnd := addAtoms_rca_nodup sd mol
  cases q with
  | mk r c => exact dget_of_mem_nodup hnd hq

theorem mem_backboneWrites {dist : Pos → Pos → ℚ} {sd : List (Nat × String)} {mol : Mol}
    {G : NXGraph} {w : Nat × Nat × (Option EdgeAttrs → EdgeAttrs)}
    (hw : w ∈ backboneWrites dist (addAtoms sd mol).2 G) :
    ∃ (r' : Int) (c d : Nat), dget (addAtoms sd mol).2 r' = some c ∧
      dget (addAtoms sd mol).2 (r' + 1) = some d ∧
      w = (c, d, mergeBond 0 0 (calculate_distance dist G c d)) := by
  unfold backboneWrites at hw
  rcases List.mem_filterMap.mp hw with ⟨p, hp, hgp⟩
  revert hgp
  cases hd : dget (addAtoms sd mol).2 (p.1 + 1) with
  | none => intro hgp; simp at hgp
  | some nca =>
      intro hgp
      injection hgp with hgp
      exact ⟨p.1, p.2, nca, rca_entry_dget hp, hd, hgp.symm⟩

theorem backbone_match_unique {sd : List (Nat × String)} {mol : Mol} {r : Int} {a b : Nat}
    (hra : dget (addAtoms sd mol).2 r = some a)
    (hrb : dget (addAtoms sd mol).2 (r + 1) = some b) :
    ∀ (r' : Int) (c d : Nat), dget (addAtoms sd mol).2 r' = some c →
      dget (addAtoms sd mol).2 (r' + 1) = some d →
      pairMatches a b c d = true → r' = r := by
  intro r' c d hc hd hm
  rcases pairMatches_iff.mp hm with ⟨h1, h2⟩ | ⟨h1, h2⟩
  · rw [← h1] at hc
    exact rca_inj sd mol hc hra
  · rw [← h2] at hc
    have hr1 : r' = r + 1 := rca_inj sd mol hc hrb
    rw [← h1] at hd
    have hr2 : r' + 1 = r := rca_inj sd mol hd hra
    omega

/-- After the backbone stage, the pair of central atoms of residues r
and r+1 carries exactly the backbone attributes: identifier 0, order 0,
and the distance between the stored coordinates. -/
theorem backbone_edge_value (dist : Pos → Pos → ℚ) (sd : List (Nat × String)) (mol : Mol)
    {r : Int} {a b : Nat} (G : NXGraph)
    (hra : dget (addAtoms sd mol).2 r = some a)
    (hrb : dget (addAtoms sd mol).2 (r + 1) = some b) :
    ∃ e, (addBackboneEdges dist (addAtoms sd mol).2 G).lookupEdge a b = some e ∧
      e.bond_idx = some 0 ∧ e.bond_order = some 0 ∧
      e.bond_length = some (calculate_distance dist G a b) := by
  rw [addBackboneEdges_eq]
  unfold backboneWrites
  set fB := (fun p : Int × Nat =>
    match dget (addAtoms sd mol).2 (p.1 + 1) with
    | none => none
    | some nca => some (p.2, nca, mergeBond 0 0 (calculate_distance dist G p.2 nca))) with hfB
  have hmem : (r, a) ∈ (addAtoms sd mol).2 := dget_mem_lawful hra
  rcases List.append_of_mem hmem with ⟨L1, L2, hsplit⟩
  have hnodupL2 : (r : Int) ∉ L2.map Prod.fst := by
    have hnd := addAtoms_rca_nodup sd mol
    rw [hsplit] at hnd
    unfold keysNodup at hnd
    rw [List.map_append, List.map_cons] at hnd
    have h2 := hnd.of_append_right
    exact (List.nodup_cons.mp h2).1
  have hfmid : fB (r, a) = some (a, b, mergeBond 0 0 (calculate_distance dist G a b)) := by
    rw [hfB]
    simp only [hrb]
  have hdec : List.filterMap fB (addAtoms sd mol).2
      = L1.filterMap fB
        ++ (a, b, mergeBond 0 0 (calculate_distance dist G a b)) :: L2.filterMap fB := by
    rw [hsplit, List.filterMap_append, List.filterMap_cons, hfmid]
  rw [hdec]
  have hnomatch : ∀ x ∈ L2.filterMap fB, pairMatches a b x.1 x.2.1 = false := by
    intro x hx
    rcases List.mem_filterMap.mp hx with ⟨p, hp, hgp⟩
    rw [hfB] at hgp
    revert hgp
    simp only []
    cases hdp : dget (addAtoms sd mol).2 (p.1 + 1) with
    | none => intro hgp; simp at hgp
    | some nca =>
        intro hgp
        injection hgp with hgp
        rw [← hgp]
        simp only []
        cases hmx : pairMatches a b p.2 nca with
        | false => rfl
        | true =>
            exfalso
            have hpmem : p ∈ (addAtoms sd mol).2 := by
              rw [hsplit]
              exact List.mem_append_right _ (List.mem_cons_of_mem _ hp)
            have hpget : dget (addAtoms sd mol).2 p.1 = some p.2 := rca_entry_dget hpmem
            have hpr := backbone_match_unique hra hrb p.1 p.2 nca hpget hdp hmx
            exact hnodupL2 (List.mem_map.mpr ⟨p, hp, hpr⟩)
  have hlast := @applyW_lookup_last a b (a, b, mergeBond 0 0 (calculate_distance dist G a b))
    (L1.filterMap fB) (L2.filterMap fB) G
    (pairMatches_self a b) hnomatch
  rw [hlast]
  cases hold : (applyW (L1.filterMap fB) G).lookupEdge a b with
  | none => exact ⟨_, rfl, rfl, rfl, rfl⟩
  | some old => exact ⟨_, rfl, rfl, rfl, rfl⟩

/-- The backbone stage leaves every pair untouched that is not a pair
of central atoms of two consecutive resolved residues. -/
theorem backbone_unchanged (dist : Pos → Pos → ℚ) (sd : List (Nat × String)) (mol : Mol)
    (G : NXGraph) {u v : Nat}
    (h : ∀ (r' : Int) (c d : Nat), dget (addAtoms sd mol).2 r' = some c →
      dget (addAtoms sd mol).2 (r' + 1) = some d → pairMatches u v c d = false) :
    (addBackboneEdges dist (addAtoms sd mol).2 G).lookupEdge u v = G.lookupEdge u v := by
  rw [addBackboneEdges_eq]
  apply applyW_lookup_nomatch
  intro w hw
  rcases mem_backboneWrites hw with ⟨r', c, d, hc, hd, hwe⟩
  rw [hwe]
  exact h r' c d hc hd

/-- A pair holding an edge record holds exactly one, in a graph with no
duplicate pair records. -/
theorem edge_count_one {G : NXGraph} {a b : Nat} {e : EdgeAttrs}
    (hnd : NoDupEdges G) (he : G.lookupEdge a b = some e) :
    (G.edges.filter (fun x => pairMatches a b x.1.1 x.1.2)).length = 1 := by
  rcases filter_single_of_noDup hnd he with ⟨k, hk, _⟩
  rw [hk]
  rfl

theorem paeInnerWrites_eq (mat : List (List ℚ)) (rca : List (Int × Nat)) (i : Nat) :
    paeInnerWrites mat rca i
      = (List.range (mat.getD i []).length).filterMap (gpae mat rca i) := rfl

theorem mem_filterMap_gpae {mat : List (List ℚ)} {rca : List (Int × Nat)} {i' : Nat}
    {l : List Nat} {w : Nat × Nat × (Option EdgeAttrs → EdgeAttrs)}
    (hw : w ∈ l.filterMap (gpae mat rca i')) :
    ∃ j' ∈ l, i' ≠ j' ∧ ∃ ca1 ca2, dget rca ((i' : Int) + 1) = some ca1 ∧
      dget rca ((j' : Int) + 1) = some ca2 ∧
      w = (ca1, ca2, mergePae ((mat.getD i' []).getD j' 0)) := by
  rcases List.mem_filterMap.mp hw with ⟨j', hj', hg⟩
  refine ⟨j', hj', ?_⟩
  revert hg
  unfold gpae
  by_cases hij : (i' == j') = true
  · rw [if_pos hij]
    intro hg
    simp at hg
  · rw [if_neg hij]
    cases h1 : dget rca ((i' : Int) + 1) with
    | none => intro hg; simp at hg
    | some ca1 =>
        cases h2 : dget rca ((j' : Int) + 1) with
        | none => intro hg; simp at hg
        | some ca2 =>
            intro hg
            injection hg with hg
            exact ⟨by simpa using hij, ca1, ca2, rfl, rfl, hg.symm⟩

theorem rca_resolve_inj {sd : List (Nat × String)} {mol : Mol} {x y c : Nat}
    (hx : dget (addAtoms sd mol).2 ((x : Int) + 1) = some c)
    (hy : dget (addAtoms sd mol).2 ((y : Int) + 1) = some c) : x = y := by
  have h := rca_inj sd mol hx hy
  omega

/-- The PAE loop never touches a self pair: its writes always join two
distinct central atoms. -/
theorem addPaeEdges_selfloop (sd : List (Nat × String)) (mol : Mol) (mat : List (List ℚ))
    (G : NXGraph) (u : Nat) :
    (addPaeEdges mat (addAtoms sd mol).2 G).lookupEdge u u = G.lookupEdge u u := by
  rw [addPaeEdges_eq]
  apply applyW_lookup_nomatch
  intro w hw
  unfold paeWrites at hw
  rcases List.mem_flatten.mp hw with ⟨L, hL, hwL⟩
  rcases List.mem_map.mp hL with ⟨i', _, hLi⟩
  rw [← hLi, paeInnerWrites_eq] at hwL
  rcases mem_filterMap_gpae hwL with ⟨j', _, hne, ca1, ca2, h1, h2, hwe⟩
  have hca : ca1 ≠ ca2 := by
    intro he
    rw [he] at h1
    exact hne (rca_resolve_inj h1 h2)
  rw [hwe]
  exact pairMatches_self_ne hca

/-- List.range n split around a member k. -/
theorem range_split (n k : Nat) (h : k < n) :
    List.range n
      = (List.range k ++ [k]) ++ (List.range (n - (k + 1))).map (fun t => (k + 1) + t) := by
  have h1 : n = (k + 1) + (n - (k + 1)) := by omega
  have h2 : List.range (k + 1) = List.range k ++ [k] := by
    simpa using List.range_succ (n := k)
  calc List.range n = List.range ((k + 1) + (n - (k + 1))) := by rw [← h1]
    _ = List.range (k + 1) ++ (List.range (n - (k + 1))).map (fun t => (k + 1) + t) :=
        List.range_add _ _
    _ = (List.range k ++ [k]) ++ (List.range (n - (k + 1))).map (fun t => (k + 1) + t) := by
        rw [h2]

/-- The final pae value of the pair of central atoms of rows hi and lo,
lo < hi, is the row hi, column lo entry: the write in iteration
(hi, lo) is the last write visiting this pair. -/
theorem pae_edge_value_ordered (sd : List (Nat × String)) (mol : Mol) (mat : List (List ℚ))
    (G : NXGraph) {hi lo c d : Nat}
    (hrows : ∀ row ∈ mat, row.length = mat.length)
    (hhi : hi < mat.length) (hlo : lo < hi)
    (hc : dget (addAtoms sd mol).2 ((hi : Int) + 1) = some c)
    (hd : dget (addAtoms sd mol).2 ((lo : Int) + 1) = some d) :
    ∃ e, (addPaeEdges mat (addAtoms sd mol).2 G).lookupEdge c d = some e ∧
      e.pae = some ((mat.getD hi []).getD lo 0) := by
  rw [addPaeEdges_eq]
  have hrowlen : (mat.getD hi []).length = mat.length := by
    rw [List.getD_eq_getElem _ _ hhi]
    exact hrows _ (List.getElem_mem hhi)
  have hlorow : lo < (mat.getD hi []).length := by
    rw [hrowlen]
    omega
  have hgmid : gpae mat (addAtoms sd mol).2 hi lo
      = some (c, d, mergePae ((mat.getD hi []).getD lo 0)) := by
    unfold gpae
    rw [if_neg (by simp; omega), hc, hd]
  have hmid : paeInnerWrites mat (addAtoms sd mol).2 hi
      = (List.range lo).filterMap (gpae mat (addAtoms sd mol).2 hi)
        ++ (c, d, mergePae ((mat.getD hi []).getD lo 0))
          :: ((List.range ((mat.getD hi []).length - (lo + 1))).map
              (fun t => (lo + 1) + t)).filterMap (gpae mat (addAtoms sd mol).2 hi) := by
    rw [paeInnerWrites_eq, range_split _ lo hlorow]
    rw [List.filterMap_append, List.filterMap_append]
    rw [show List.filterMap (gpae mat (addAtoms sd mol).2 hi) [lo]
        = [(c, d, mergePae ((mat.getD hi []).getD lo 0))] by
      rw [List.filterMap_cons, hgmid]
      rfl]
    rw [List.append_assoc]
    rfl
  have hwhole : paeWrites mat (addAtoms sd mol).2
      = (((List.range hi).map (paeInnerWrites mat (addAtoms sd mol).2)).flatten
          ++ (List.range lo).filterMap (gpae mat (addAtoms sd mol).2 hi))
        ++ (c, d, mergePae ((mat.getD hi []).getD lo 0))
          :: (((List.range ((mat.getD hi []).length - (lo + 1))).map
                (fun t => (lo + 1) + t)).filterMap (gpae mat (addAtoms sd mol).2 hi)
            ++ (((List.range (mat.length - (hi + 1))).map (fun t => (hi + 1) + t)).map
                (paeInnerWrites mat (addAtoms sd mol).2)).flatten) := by
    unfold paeWrites
    rw [range_split _ hi hhi]
    rw [List.map_append, List.flatten_append, List.map_append, List.flatten_append]
    rw [show ([hi].map (paeInnerWrites mat (addAtoms sd mol).2)).flatten
        = paeInnerWrites mat (addAtoms sd mol).2 hi by simp]
    rw [hmid]
    simp [List.append_assoc]
  rw [hwhole]
  have hnomatch : ∀ x ∈ (((List.range ((mat.getD hi []).length - (lo + 1))).map
        (fun t => (lo + 1) + t)).filterMap (gpae mat (addAtoms sd mol).2 hi)
      ++ (((List.range (mat.length - (hi + 1))).map (fun t => (hi + 1) + t)).map
          (paeInnerWrites mat (addAtoms sd mol).2)).flatten),
      pairMatches c d x.1 x.2.1 = false := by
    intro x hx
    rcases List.mem_append.mp hx with hx | hx
    · rcases mem_filterMap_gpae hx with ⟨j', hj', hne, ca1, ca2, h1, h2, hwe⟩
      have hca1 : ca1 = c := by
        rw [hc] at h1
        injection h1.symm
      have hjgt : lo < j' := by
        rcases List.mem_map.mp hj' with ⟨t, _, ht⟩
        omega
      rw [hwe]
      simp only []
      cases hmx : pairMatches c d ca1 ca2 with
      | false => rfl
      | true =>
          exfalso
          rcases pairMatches_iff.mp hmx with ⟨g1, g2⟩ | ⟨g1, g2⟩
          · rw [← g2] at h2
            have := rca_resolve_inj h2 hd
            omega
          · rw [← g2] at h1
            have := rca_resolve_inj h1 hd
            omega
    · rcases List.mem_flatten.mp hx with ⟨L, hL, hxL⟩
      rcases List.mem_map.mp hL with ⟨i'', hi'', hLi⟩
      rcases List.mem_map.mp hi'' with ⟨t, _, ht⟩
      rw [← hLi, paeInnerWrites_eq] at hxL
      rcases mem_filterMap_gpae hxL with ⟨j', _, hne, ca1, ca2, h1, h2, hwe⟩
      rw [hwe]
      simp only []
      cases hmx : pairMatches c d ca1 ca2 with
      | false => rfl
      | true =>
          exfalso
          rcases pairMatches_iff.mp hmx with ⟨g1, g2⟩ | ⟨g1, g2⟩
          · rw [← g1] at h1
            have := rca_resolve_inj h1 hc
            omega
          · rw [← g2] at h1
            have := rca_resolve_inj h1 hd
            omega
  have hlast := @applyW_lookup_last c d (c, d, mergePae ((mat.getD hi []).getD lo 0))
    (((List.range hi).map (paeInnerWrites mat (addAtoms sd mol).2)).flatten
      ++ (List.range lo).filterMap (gpae mat (addAtoms sd mol).2 hi)) _ G
    (pairMatches_self c d) hnomatch
  rw [hlast]
  cases (applyW (((List.range hi).map (paeInnerWrites mat (addAtoms sd mol).2)).flatten
      ++ (List.range lo).filterMap (gpae mat (addAtoms sd mol).2 hi)) G).lookupEdge c d with
  | none => exact ⟨_, rfl, rfl⟩
  | some old => exact ⟨_, rfl, rfl⟩

/-- The final pae value on the pair of central atoms of rows i and j is
the later write, row (max i j) column (min i j). -/
theorem pae_edge_value (sd : List (Nat × String)) (mol : Mol) (mat : List (List ℚ))
    (G : NXGraph) {i j a b : Nat}
    (hrows : ∀ row ∈ mat, row.length = mat.length)
    (hi : i < mat.length) (hj : j < mat.length) (hij : i ≠ j)
    (ha : dget (addAtoms sd mol).2 ((i : Int) + 1) = some a)
    (hb : dget (addAtoms sd mol).2 ((j : Int) + 1) = some b) :
    ∃ e, (addPaeEdges mat (addAtoms sd mol).2 G).lookupEdge a b = some e ∧
      e.pae = some ((mat.getD (max i j) []).getD (min i j) 0) := by
  rcases Nat.lt_or_ge i j with hlt | hge
  · rcases pae_edge_value_ordered sd mol mat G hrows hj hlt hb ha with ⟨e, he, hp⟩
    refine ⟨e, ?_, ?_⟩
    · rw [lookupEdge_congr (show pairMatches a b b a = true by simp [pairMatches_iff])
        (addPaeEdges mat (addAtoms sd mol).2 G)]
      exact he
    · rw [Nat.max_eq_right (Nat.le_of_lt hlt), Nat.min_eq_left (Nat.le_of_lt hlt)]
      exact hp
  · have hgt : j < i := by omega
    rcases pae_edge_value_ordered sd mol mat G hrows hi hgt ha hb with ⟨e, he, hp⟩
    refine ⟨e, he, ?_⟩
    rw [Nat.max_eq_left (Nat.le_of_lt hgt), Nat.min_eq_right (Nat.le_of_lt hgt)]
    exact hp

/-! ### Merge rather than parallel edge -/

theorem setEdgeList_length_found {u v : Nat} {f : Option EdgeAttrs → EdgeAttrs} :
    ∀ l : List ((Nat × Nat) × EdgeAttrs),
      (l.find? (fun e => pairMatches u v e.1.1 e.1.2)).isSome →
      (setEdgeList l u v f).length = l.length
  | [], h => by simp at h
  | e :: rest, h => by
      rw [setEdgeList]
      by_cases hm : pairMatches u v e.1.1 e.1.2
      · rw [if_pos hm]
        simp
      · rw [if_neg hm]
        have h2 : ((rest.find? (fun e => pairMatches u v e.1.1 e.1.2))).isSome := by
          rw [List.find?_cons] at h
          simpa [hm] using h
        rw [List.length_cons, List.length_cons, setEdgeList_length_found rest h2]

/-- A PAE write onto an already connected pair merges the error onto
the existing attribute dict, keeping its bond keys, and adds no second
edge record. -/
theorem setEdge_merge_pae {G : NXGraph} {u v : Nat} {p : ℚ} {old : EdgeAttrs}
    (h : G.lookupEdge u v = some old) :
    (G.setEdge u v (mergePae p)).lookupEdge u v
        = some { bond_idx := old.bond_idx
                 bond_order := old.bond_order
                 bond_length := old.bond_length
                 pae := some p } ∧
      (G.setEdge u v (mergePae p)).edges.length = G.edges.length := by
  constructor
  · rw [lookupEdge_setEdge_match (pairMatches_self u v) G, h]
    rfl
  · show (setEdgeList G.edges u v (mergePae p)).length = G.edges.length
    apply setEdgeList_length_found
    unfold NXGraph.lookupEdge at h
    cases hf : G.edges.find? (fun e => pairMatches u v e.1.1 e.1.2) with
    | none => rw [hf] at h; simp at h
    | some x => simp [hf]

/-! ### Pipeline invariants -/

theorem addAtomsAux_edges (sd : List (Nat × String)) :
    ∀ (l : List RAtom) (i : Nat) (G : NXGraph) (rca : List (Int × Nat)),
      (addAtomsAux sd l i G rca).1.edges = G.edges
  | [], _, _, _ => rfl
  | a :: rest, i, G, rca => by
      rw [addAtomsAux]
      by_cases hca : (dget sd a.serial_number == some "CA") = true
      · rw [if_pos hca]
        exact addAtomsAux_edges sd rest (i + 1) _ _
      · rw [if_neg hca]
        exact addAtomsAux_edges sd rest (i + 1) _ _

theorem noDupEdges_of_edges_eq {G1 G2 : NXGraph} (h : G1.edges = G2.edges)
    (h2 : NoDupEdges G2) : NoDupEdges G1 := by
  unfold NoDupEdges
  rw [h]
  exact h2

/-- The graph assembled before the DSSP stage (without PAE) has no
duplicate pair records. -/
theorem pipeline_noDup (dist : Pos → Pos → ℚ) (sd : List (Nat × String)) (mol : Mol)
    (pd : List (Int × ℚ)) :
    NoDupEdges (addPlddt mol pd (addBackboneEdges dist (addAtoms sd mol).2
      (addBondEdges dist mol (addAtoms sd mol).1))) := by
  apply noDupEdges_of_edges_eq (addPlddtAux_edges pd mol.atoms 0 _)
  apply addBackboneEdges_noDup
  unfold addBondEdges
  apply addBondEdgesAux_noDup
  apply noDupEdges_of_edges_eq (addAtomsAux_edges sd mol.atoms 0 _ [])
  exact noDupEdges_empty

/-- The pre-DSSP pipeline graph has nodes exactly the assembled node
list updated with plddt values. -/
theorem pipeline_nodes (dist : Pos → Pos → ℚ) (sd : List (Nat × String)) (mol : Mol) :
    (addBackboneEdges dist (addAtoms sd mol).2
      (addBondEdges dist mol (addAtoms sd mol).1)).nodes = nodesSpec sd mol.atoms 0 := by
  rw [addBackboneEdges_nodes]
  unfold addBondEdges
  rw [addBondEdgesAux_nodes]
  exact addAtoms_nodes sd mol

/-- Any graph a job writes has no duplicate pair records. -/
theorem job_wrote_noDup {dist : Pos → Pos → ℚ} {fmt : Pos → String} {ip : Bool}
    {inp : JobInput} {b : Bool} {g : NXGraph}
    (h : protein_molecule_graphs dist fmt ip inp b = JobResult.wrote g) : NoDupEdges g := by
  rcases job_wrote_inv dist fmt ip inp b g h with ⟨hb, hmol, hstr, hpdf, hpmf, recs, hd⟩
  subst hb
  rcases Option.isSome_iff_exists.mp hmol with ⟨mol, hm⟩
  rcases Option.isSome_iff_exists.mp hstr with ⟨s, hs⟩
  rcases hpdf s hs with ⟨pd, hpd⟩
  cases ip with
  | false =>
      rw [job_wrote_no_pae dist fmt hm hs hpd hd] at h
      injection h with hg
      rw [← hg]
      apply noDupEdges_of_edges_eq (serializeCoords_edges fmt _)
      apply noDupEdges_of_edges_eq (applyDssp_edges _ _)
      exact pipeline_noDup dist (buildSerialAtomDict s) mol pd
  | true =>
      rcases hpmf rfl with ⟨mat, hpm⟩
      rw [job_wrote_with_pae dist fmt hm hs hpd hpm hd] at h
      injection h with hg
      rw [← hg]
      apply noDupEdges_of_edges_eq (serializeCoords_edges fmt _)
      apply noDupEdges_of_edges_eq (applyDssp_edges _ _)
      apply addPaeEdges_noDup
      exact pipeline_noDup dist (buildSerialAtomDict s) mol pd

/-- Any graph a job writes keeps exactly the assembled node indices
0..N-1, in order. -/
theorem job_wrote_nodes_fst {dist : Pos → Pos → ℚ} {fmt : Pos → String} {ip : Bool}
    {inp : JobInput} {b : Bool} {g : NXGraph} {mol : Mol}
    (h : protein_molecule_graphs dist fmt ip inp b = JobResult.wrote g)
    (hm : inp.rmol = some mol) :
    g.nodes.map Prod.fst = List.range mol.atoms.length := by
  rcases job_wrote_inv dist fmt ip inp b g h with ⟨hb, _, hstr, hpdf, hpmf, recs, hd⟩
  subst hb
  rcases Option.isSome_iff_exists.mp hstr with ⟨s, hs⟩
  rcases hpdf s hs with ⟨pd, hpd⟩
  cases ip with
  | false =>
      rw [job_wrote_no_pae dist fmt hm hs hpd hd] at h
      injection h with hg
      rw [← hg]
      rw [serializeCoords_nodes_fst, applyDssp_nodes_fst, addPlddt_nodes_fst,
        addBackboneEdges_nodes]
      unfold addBondEdges
      rw [addBondEdgesAux_nodes]
      exact addAtoms_nodes_fst (buildSerialAtomDict s) mol
  | true =>
      rcases hpmf rfl with ⟨mat, hpm⟩
      rw [job_wrote_with_pae dist fmt hm hs hpd hpm hd] at h
      injection h with hg
      rw [← hg]
      rw [serializeCoords_nodes_fst, applyDssp_nodes_fst]
      rw [addPaeEdges_nodes]
      rw [addPlddt_nodes_fst, addBackboneEdges_nodes]
      unfold addBondEdges
      rw [addBondEdgesAux_nodes]
      exact addAtoms_nodes_fst (buildSerialAtomDict s) mol

/-! ### DSSP fields absent before the DSSP stage -/

theorem dsspUnset_plddtUpd (pd : List (Int × ℚ)) (l : List RAtom) (i : Nat)
    (p : Nat × NodeAttrs) (h : dsspUnset p.2) : dsspUnset (plddtUpd pd l i p).2 := by
  rw [plddtUpd_eq]
  split
  · rcases h with ⟨h1, h2, h3, h4, h5, h6, h7, h8, h9, h10, h11, h12⟩
    exact ⟨h1, h2, h3, h4, h5, h6, h7, h8, h9, h10, h11, h12⟩
  · exact h

/-- Before the DSSP stage runs, no node carries any of the twelve DSSP
attributes. -/
theorem preDssp_unset {mol : Mol} {sd : List (Nat × String)} {pd : List (Int × ℚ)}
    {G : NXGraph} (hG : G.nodes = nodesSpec sd mol.atoms 0) :
    ∀ p ∈ (addPlddt mol pd G).nodes, dsspUnset p.2 := by
  intro p hp
  unfold addPlddt at hp
  rw [addPlddtAux_nodes, hG] at hp
  rcases List.mem_map.mp hp with ⟨q, hq, hpq⟩
  rcases mem_nodesSpec sd hq with ⟨k, hk, hqk⟩
  rw [← hpq]
  apply dsspUnset_plddtUpd
  rw [hqk]
  exact dsspUnset_initAttrs _ _

/-! ### Claims -/

/-- Claim C1: a per-protein job whose destination artifact already
exists is skipped before any parsing (the outcome does not depend on
the parsed inputs), an existing artifact is never rewritten by a run,
and running the batch orchestrator twice on the same input and output
pair leaves exactly the artifacts of the first run, with the same
reported outcome. -/
theorem claim_C1 (dist : Pos → Pos → ℚ) (fmt : Pos → String) (ip : Bool) (w : World) :
    (∀ inp : JobInput, protein_molecule_graphs dist fmt ip inp true = JobResult.skipped)
  ∧ (∀ n : String, (dget w.outputs n).isSome →
      dget (alpha_nx dist fmt ip w).1.outputs n = dget w.outputs n)
  ∧ alpha_nx dist fmt ip (alpha_nx dist fmt ip w).1 = alpha_nx dist fmt ip w := by
  refine ⟨fun _ => rfl, ?_, alpha_nx_idem dist fmt ip w⟩
  intro n hn
  show dget (runJobs dist fmt ip
    (w.inputs.filter (fun t => !((w.outputs.map (fun p => p.1)).contains t.1)))
    w.outputs).1 n = dget w.outputs n
  exact dget_runJobs_preserved hn

theorem claim_C1_witness :
    (dget wC1.outputs "p").isSome = true ∧
    dget (alpha_nx distZero fmtEmpty false wC1).1.outputs "p" = dget wC1.outputs "p" :=
  ⟨by decide, (claim_C1 distZero fmtEmpty false wC1).2.1 "p" (by decide)⟩

/-- Claim C2 counterexample: with an unparseable structure file queued
before a healthy one, the healthy job does succeed when dispatched on
its own, yet the batch run ends with a propagated exception and never
produces the healthy artifact: the failure is escalated and the
remaining queued job is not completed. -/
theorem claim_C2_counterexample :
    (protein_molecule_graphs distZero fmtEmpty false goodInp false).isWrote = true
  ∧ (alpha_nx distZero fmtEmpty false wC2).2 = some molNoneMsg
  ∧ dget (alpha_nx distZero fmtEmpty false wC2).1.outputs "b" = none := by
  refine ⟨by decide, by decide, by decide⟩

/-- Claim C2, amended: an unparseable structure file makes the single
job abort by propagating an uncaught exception (not retried), and the
eager result collection re-raises it in the orchestrator: the run stops
at that job, the output directory is unchanged from that point, and the
remaining queued jobs are not dispatched. -/
theorem claim_C2 (dist : Pos → Pos → ℚ) (fmt : Pos → String) (ip : Bool) (inp : JobInput)
    (h : inp.rmol = none) (n : String) (rest : List (String × JobInput))
    (fs : List (String × NXGraph)) (hn : artifactExists fs n = false) :
    protein_molecule_graphs dist fmt ip inp false = JobResult.raised molNoneMsg
  ∧ runJobs dist fmt ip ((n, inp) :: rest) fs = (fs, some molNoneMsg) := by
  refine ⟨job_mol_none_raised dist fmt ip h, ?_⟩
  rw [runJobs, hn, job_mol_none_raised dist fmt ip h]

theorem claim_C2_witness :
    protein_molecule_graphs distZero fmtEmpty false badInp false = JobResult.raised molNoneMsg
  ∧ runJobs distZero fmtEmpty false [("a", badInp)] [] = ([], some molNoneMsg) :=
  claim_C2 distZero fmtEmpty false badInp (by decide) "a" [] [] (by decide)

/-- Claim C3 counterexample: a structure holding a residue with no CA
atom makes the confidence stage raise an uncaught KeyError, so the job
aborts instead of leaving that residue's confidence value absent. -/
theorem claim_C3_counterexample :
    residueCA resNoCA = none ∧ resNoCA ∈ allResidues structNoCA ∧
    protein_molecule_graphs distZero fmtEmpty false inpNoCA false
      = JobResult.raised "KeyError: CA" := by
  refine ⟨by decide, by decide, by decide⟩

/-- Claim C3, amended: after the confidence stage, every node carries
plddt equal to the confidence dict .get at its residue number, so all
atoms of one residue share the value, and every dict entry is the
B-factor read from the CA atom of a walked residue; the value is absent
only for residue numbers outside the dict, while a walked residue with
no CA atom aborts the whole job with an uncaught KeyError before the
broadcast. -/
theorem claim_C3 (dist : Pos → Pos → ℚ) (sd : List (Nat × String)) (mol : Mol)
    (s : BStructure) (pd : List (Int × ℚ)) (hpd : buildPlddtDict s = Except.ok pd) :
    (∀ p ∈ (addPlddt mol pd (addBackboneEdges dist (addAtoms sd mol).2
        (addBondEdges dist mol (addAtoms sd mol).1))).nodes,
      p.2.plddt = some (dget pd p.2.residue_number))
  ∧ (∀ p q, p ∈ (addPlddt mol pd (addBackboneEdges dist (addAtoms sd mol).2
        (addBondEdges dist mol (addAtoms sd mol).1))).nodes →
      q ∈ (addPlddt mol pd (addBackboneEdges dist (addAtoms sd mol).2
        (addBondEdges dist mol (addAtoms sd mol).1))).nodes →
      p.2.residue_number = q.2.residue_number → p.2.plddt = q.2.plddt)
  ∧ (∀ q ∈ pd, ∃ res ∈ allResidues s, res.resseq = q.1 ∧
      ∃ ca, residueCA res = some ca ∧ ca.bfactor = q.2)
  ∧ (∀ (fmt : Pos → String) (ip : Bool) (inp : JobInput) (s' : BStructure) (res : BResidue),
      inp.rmol.isSome → inp.pstruct = some s' → res ∈ allResidues s' →
      residueCA res = none →
      ∃ e, protein_molecule_graphs dist fmt ip inp false = JobResult.raised e) := by
  have hG : (addBackboneEdges dist (addAtoms sd mol).2
      (addBondEdges dist mol (addAtoms sd mol).1)).nodes = nodesSpec sd mol.atoms 0 :=
    pipeline_nodes dist sd mol
  have h1 := @addPlddt_plddt _ _ pd _ hG
  refine ⟨h1, ?_, buildPlddtDict_mem hpd, ?_⟩
  · intro p q hp hq hrn
    rw [h1 p hp, h1 q hq, hrn]
  · intro fmt ip inp s' res hmol hs' hres hca
    rcases Option.isSome_iff_exists.mp hmol with ⟨mol', hm'⟩
    rcases buildPlddtDict_error hres hca with ⟨e, he⟩
    exact ⟨e, job_plddt_raised dist fmt ip hm' hs' he⟩

theorem claim_C3_witness :
    buildPlddtDict structAB = Except.ok pdAB ∧
    ((∀ p ∈ (addPlddt molAB pdAB (addBackboneEdges distZero (addAtoms sdAB molAB).2
        (addBondEdges distZero molAB (addAtoms sdAB molAB).1))).nodes,
      p.2.plddt = some (dget pdAB p.2.residue_number))
  ∧ (∀ p q, p ∈ (addPlddt molAB pdAB (addBackboneEdges distZero (addAtoms sdAB molAB).2
        (addBondEdges distZero molAB (addAtoms sdAB molAB).1))).nodes →
      q ∈ (addPlddt molAB pdAB (addBackboneEdges distZero (addAtoms sdAB molAB).2
        (addBondEdges distZero molAB (addAtoms sdAB molAB).1))).nodes →
      p.2.residue_number = q.2.residue_number → p.2.plddt = q.2.plddt)
  ∧ (∀ q ∈ pdAB, ∃ res ∈ allResidues structAB, res.resseq = q.1 ∧
      ∃ ca, residueCA res = some ca ∧ ca.bfactor = q.2)
  ∧ (∀ (fmt : Pos → String) (ip : Bool) (inp : JobInput) (s' : BStructure) (res : BResidue),
      inp.rmol.isSome → inp.pstruct = some s' → res ∈ allResidues s' →
      residueCA res = none →
      ∃ e, protein_molecule_graphs distZero fmt ip inp false = JobResult.raised e)) :=
  ⟨by decide, claim_C3 distZero sdAB molAB structAB pdAB (by decide)⟩

/-- Claim C4 counterexample: a node whose residue matches a DSSP record
receives twelve individual attributes, not eleven. -/
theorem claim_C4_counterexample :
    (dget (run_dssp [rec1]) (1 : Int)).isSome = true
  ∧ ((applyDssp (run_dssp [rec1]) gC4).nodes.map (fun p => dsspCount p.2)) = [12]
  ∧ ¬ (((applyDssp (run_dssp [rec1]) gC4).nodes.map (fun p => dsspCount p.2)) = [11]) := by
  refine ⟨by decide, by decide, by decide⟩

/-- Claim C4, amended: after the DSSP stage, every node whose residue
number is a key of the analyzer dict carries exactly the twelve DSSP
attributes, each equal to the field of that key's record, and every
node whose residue number is not a key has none of them set; before the
stage, no pipeline node has any of them set. -/
theorem claim_C4 (dd : List (Int × DsspRecord)) (G : NXGraph)
    (hclean : ∀ p ∈ G.nodes, dsspUnset p.2) :
    (∀ p ∈ (applyDssp dd G).nodes,
      (∀ r, dget dd p.2.residue_number = some r →
        p.2.secondary_structure = some r.ss ∧ p.2.exposure = some r.exposure ∧
        p.2.phi = some r.phi ∧ p.2.psi = some r.psi ∧
        p.2.NH_O_1_relidx = some r.NH_O_1_relidx ∧ p.2.NH_O_1_energy = some r.NH_O_1_energy ∧
        p.2.O_NH_1_relidx = some r.O_NH_1_relidx ∧ p.2.O_NH_1_energy = some r.O_NH_1_energy ∧
        p.2.NH_O_2_relidx = some r.NH_O_2_relidx ∧ p.2.NH_O_2_energy = some r.NH_O_2_energy ∧
        p.2.O_NH_2_relidx = some r.O_NH_2_relidx ∧ p.2.O_NH_2_energy = some r.O_NH_2_energy ∧
        dsspCount p.2 = 12)
      ∧ (dget dd p.2.residue_number = none → dsspUnset p.2 ∧ dsspCount p.2 = 0))
  ∧ (∀ (dist : Pos → Pos → ℚ) (sd : List (Nat × String)) (mol : Mol) (pd : List (Int × ℚ)),
      ∀ p ∈ (addPlddt mol pd (addBackboneEdges dist (addAtoms sd mol).2
        (addBondEdges dist mol (addAtoms sd mol).1))).nodes, dsspUnset p.2) := by
  constructor
  · intro p hp
    rcases applyDssp_spec dd G p hp with ⟨q, hq, _, hrn, hcase⟩
    constructor
    · intro r hr
      rcases hcase with ⟨r0, hr0, hset⟩ | ⟨hnone, hpq⟩
      · rw [hrn, hr0] at hr
        injection hr with hr
        rw [hset, ← hr]
        exact ⟨rfl, rfl, rfl, rfl, rfl, rfl, rfl, rfl, rfl, rfl, rfl, rfl,
          dsspCount_setDsspFields q.2 r0⟩
      · rw [hrn, hnone] at hr
        exact absurd hr (by simp)
    · intro hnone'
      rcases hcase with ⟨r0, hr0, hset⟩ | ⟨hnone, hpq⟩
      · rw [hrn, hr0] at hnone'
        exact absurd hnone' (by simp)
      · rw [hpq]
        exact ⟨hclean q hq, dsspUnset_count (hclean q hq)⟩
  · intro dist sd mol pd
    exact preDssp_unset (pipeline_nodes dist sd mol)

theorem claim_C4_witness :
    (∀ p ∈ gC4.nodes, dsspUnset p.2) ∧
    ((∀ p ∈ (applyDssp (run_dssp [rec1]) gC4).nodes,
      (∀ r, dget (run_dssp [rec1]) p.2.residue_number = some r →
        p.2.secondary_structure = some r.ss ∧ p.2.exposure = some r.exposure ∧
        p.2.phi = some r.phi ∧ p.2.psi = some r.psi ∧
        p.2.NH_O_1_relidx = some r.NH_O_1_relidx ∧ p.2.NH_O_1_energy = some r.NH_O_1_energy ∧
        p.2.O_NH_1_relidx = some r.O_NH_1_relidx ∧ p.2.O_NH_1_energy = some r.O_NH_1_energy ∧
        p.2.NH_O_2_relidx = some r.NH_O_2_relidx ∧ p.2.NH_O_2_energy = some r.NH_O_2_energy ∧
        p.2.O_NH_2_relidx = some r.O_NH_2_relidx ∧ p.2.O_NH_2_energy = some r.O_NH_2_energy ∧
        dsspCount p.2 = 12)
      ∧ (dget (run_dssp [rec1]) p.2.residue_number = none → dsspUnset p.2 ∧ dsspCount p.2 = 0))
  ∧ (∀ (dist : Pos → Pos → ℚ) (sd : List (Nat × String)) (mol : Mol) (pd : List (Int × ℚ)),
      ∀ p ∈ (addPlddt mol pd (addBackboneEdges dist (addAtoms sd mol).2
        (addBondEdges dist mol (addAtoms sd mol).1))).nodes, dsspUnset p.2)) :=
  by
  have hcl : ∀ p ∈ gC4.nodes, dsspUnset p.2 := by
    intro p hp
    simp only [gC4, List.mem_singleton] at hp
    rw [hp]
    exact dsspUnset_initAttrs (some "CA") atomA
  exact ⟨hcl, claim_C4 (run_dssp [rec1]) gC4 hcl⟩

/-- Claim C5 counterexample: on the asymmetric sample matrix, the edge
between the representative atoms of residues 1 and 2 ends with error
matrix 1 0 = 2, not matrix 0 1 = 1 as the claim states for the pair
(i, j) = (0, 1). -/
theorem claim_C5_counterexample :
    dget (addAtoms sdAB molAB).2 (((0 : Nat) : Int) + 1) = some 0
  ∧ dget (addAtoms sdAB molAB).2 (((1 : Nat) : Int) + 1) = some 1
  ∧ ((([[0, 1], [2, 0]] : List (List ℚ)).getD 0 []).getD 1 0 = 1)
  ∧ ((wroteGraph (protein_molecule_graphs distZero fmtEmpty true goodInp false)).lookupEdge
      0 1).map (fun e => e.pae) = some (some 2)
  ∧ ¬ (((wroteGraph (protein_molecule_graphs distZero fmtEmpty true goodInp false)).lookupEdge
      0 1).map (fun e => e.pae) = some (some 1)) := by
  refine ⟨by decide, by decide, by decide, by decide, by decide⟩

/-- Claim C5, amended: for every off-diagonal pair (i, j) of a square
PAE matrix whose residue numbers i+1 and j+1 both resolve to
representative atoms, the graph after the PAE stage holds an edge
between the two (distinct) representative atoms whose error value is
the later of the two symmetric writes, entry (max i j, min i j); and
the stage never creates or alters a self loop. -/
theorem claim_C5 (sd : List (Nat × String)) (mol : Mol) (mat : List (List ℚ))
    (G : NXGraph) (i j a b : Nat)
    (hsquare : ∀ row ∈ mat, row.length = mat.length)
    (hi : i < mat.length) (hj : j < mat.length) (hij : i ≠ j)
    (ha : dget (addAtoms sd mol).2 ((i : Int) + 1) = some a)
    (hb : dget (addAtoms sd mol).2 ((j : Int) + 1) = some b) :
    (∃ e, (addPaeEdges mat (addAtoms sd mol).2 G).lookupEdge a b = some e ∧
      e.pae = some ((mat.getD (max i j) []).getD (min i j) 0))
  ∧ a ≠ b
  ∧ (∀ u : Nat, (addPaeEdges mat (addAtoms sd mol).2 G).lookupEdge u u = G.lookupEdge u u) := by
  refine ⟨pae_edge_value sd mol mat G hsquare hi hj hij ha hb, ?_,
    fun u => addPaeEdges_selfloop sd mol mat G u⟩
  intro hab
  rw [hab] at ha
  exact hij (rca_resolve_inj ha hb)

theorem claim_C5_witness :
    (∀ row ∈ ([[0, 1], [2, 0]] : List (List ℚ)),
      row.length = ([[0, 1], [2, 0]] : List (List ℚ)).length) ∧
    ((∃ e, (addPaeEdges [[0, 1], [2, 0]] (addAtoms sdAB molAB).2 gEmpty).lookupEdge 0 1
        = some e ∧
      e.pae = some ((([[0, 1], [2, 0]] : List (List ℚ)).getD (max 0 1) []).getD (min 0 1) 0))
  ∧ (0 : Nat) ≠ 1
  ∧ (∀ u : Nat, (addPaeEdges [[0, 1], [2, 0]] (addAtoms sdAB molAB).2 gEmpty).lookupEdge u u
      = gEmpty.lookupEdge u u)) :=
  ⟨by decide, claim_C5 sdAB molAB [[0, 1], [2, 0]] gEmpty 0 1 0 1 (by decide) (by decide)
    (by decide) (by decide) (by decide) (by decide)⟩

/-- Claim C6: with the pairwise error flag on, a side channel file that
cannot be read, decoded, or that lacks the required field aborts only
that protein job at the integration stage with a caught, logged error;
no artifact is written for it, and the worker loop continues with every
remaining queued task unchanged. -/
theorem claim_C6 (dist : Pos → Pos → ℚ) (fmt : Pos → String) (inp : JobInput) (mol : Mol)
    (s : BStructure) (pd : List (Int × ℚ)) (e : String)
    (hm : inp.rmol = some mol) (hs : inp.pstruct = some s)
    (hpd : buildPlddtDict s = Except.ok pd) (hpm : getPaeMatrix inp.pae = Except.error e) :
    protein_molecule_graphs dist fmt true inp false = JobResult.aborted e
  ∧ (∀ (n : String) (rest : List (String × JobInput)) (fs : List (String × NXGraph)),
      artifactExists fs n = false →
      runJobs dist fmt true ((n, inp) :: rest) fs = runJobs dist fmt true rest fs) := by
  refine ⟨job_pae_aborted dist fmt hm hs hpd hpm, ?_⟩
  intro n rest fs hn
  rw [runJobs, hn, job_pae_aborted dist fmt hm hs hpd hpm]

theorem claim_C6_witness :
    getPaeMatrix inpPaeNoField.pae = Except.error "No predicted_aligned_error in JSON" ∧
    (protein_molecule_graphs distZero fmtEmpty true inpPaeNoField false
        = JobResult.aborted "No predicted_aligned_error in JSON"
  ∧ (∀ (n : String) (rest : List (String × JobInput)) (fs : List (String × NXGraph)),
      artifactExists fs n = false →
      runJobs distZero fmtEmpty true ((n, inpPaeNoField) :: rest) fs
        = runJobs distZero fmtEmpty true rest fs)) :=
  ⟨by decide, claim_C6 distZero fmtEmpty inpPaeNoField molAB structAB pdAB
    "No predicted_aligned_error in JSON" (by decide) (by decide) (by decide) (by decide)⟩

/-- Claim C7: after the backbone stage, whenever residues r and r+1
both resolve in the representative atom dict, the two representative
atoms are joined by exactly one edge record carrying identifier 0,
order 0 and the distance between their stored coordinates; and a pair
that is not two consecutive resolved representative atoms is left
untouched, so no edge bridges a numbering gap. -/
theorem claim_C7 (dist : Pos → Pos → ℚ) (sd : List (Nat × String)) (mol : Mol)
    (G : NXGraph) (r : Int) (a b : Nat) (hnd : NoDupEdges G)
    (hra : dget (addAtoms sd mol).2 r = some a)
    (hrb : dget (addAtoms sd mol).2 (r + 1) = some b) :
    (∃ e, (addBackboneEdges dist (addAtoms sd mol).2 G).lookupEdge a b = some e ∧
      e.bond_idx = some 0 ∧ e.bond_order = some 0 ∧
      e.bond_length = some (calculate_distance dist G a b) ∧
      ((addBackboneEdges dist (addAtoms sd mol).2 G).edges.filter
        (fun x => pairMatches a b x.1.1 x.1.2)).length = 1)
  ∧ (∀ u v : Nat,
      (∀ (r' : Int) (c d : Nat), dget (addAtoms sd mol).2 r' = some c →
        dget (addAtoms sd mol).2 (r' + 1) = some d → pairMatches u v c d = false) →
      (addBackboneEdges dist (addAtoms sd mol).2 G).lookupEdge u v = G.lookupEdge u v) := by
  rcases backbone_edge_value dist sd mol G hra hrb with ⟨e, he, h2, h3, h4⟩
  have hnd2 : NoDupEdges (addBackboneEdges dist (addAtoms sd mol).2 G) :=
    addBackboneEdges_noDup hnd
  exact ⟨⟨e, he, h2, h3, h4, edge_count_one hnd2 he⟩,
    fun u v h => backbone_unchanged dist sd mol G h⟩

theorem claim_C7_witness :
    dget (addAtoms sdAB molAB).2 (1 : Int) = some 0 ∧
    dget (addAtoms sdAB molAB).2 ((1 : Int) + 1) = some 1 ∧
    ((∃ e, (addBackboneEdges distZero (addAtoms sdAB molAB).2 gEmpty).lookupEdge 0 1
        = some e ∧
      e.bond_idx = some 0 ∧ e.bond_order = some 0 ∧
      e.bond_length = some (calculate_distance distZero gEmpty 0 1) ∧
      ((addBackboneEdges distZero (addAtoms sdAB molAB).2 gEmpty).edges.filter
        (fun x => pairMatches 0 1 x.1.1 x.1.2)).length = 1)
  ∧ (∀ u v : Nat,
      (∀ (r' : Int) (c d : Nat), dget (addAtoms sdAB molAB).2 r' = some c →
        dget (addAtoms sdAB molAB).2 (r' + 1) = some d → pairMatches u v c d = false) →
      (addBackboneEdges distZero (addAtoms sdAB molAB).2 gEmpty).lookupEdge u v
        = gEmpty.lookupEdge u v)) :=
  ⟨by decide, by decide,
    claim_C7 distZero sdAB molAB gEmpty 1 0 1 noDupEdges_empty (by decide) (by decide)⟩

/-- Claim C8: a molecule with N atoms yields a graph whose node keys
are exactly 0..N-1, one node per atom, already at assembly, and every
artifact a job writes still carries exactly those node keys in the same
order: indices are never reassigned by any later stage. -/
theorem claim_C8 (dist : Pos → Pos → ℚ) (fmt : Pos → String) (ip : Bool) (inp : JobInput)
    (b : Bool) (g : NXGraph) (mol : Mol) (hwf : mol.WF) (hm : inp.rmol = some mol)
    (hw : protein_molecule_graphs dist fmt ip inp b = JobResult.wrote g) :
    g.nodes.map Prod.fst = List.range mol.atoms.length
  ∧ g.nodes.length = mol.atoms.length
  ∧ (∀ sd : List (Nat × String),
      (addAtoms sd mol).1.nodes.map Prod.fst = List.range mol.atoms.length) := by
  have h1 := job_wrote_nodes_fst hw hm
  refine ⟨h1, ?_, fun sd => addAtoms_nodes_fst sd mol⟩
  have h2 := congrArg List.length h1
  simpa using h2

theorem claim_C8_witness :
    molAB.WF ∧
    ((wroteGraph (protein_molecule_graphs distZero fmtEmpty false goodInp false)).nodes.map
        Prod.fst = List.range molAB.atoms.length
  ∧ (wroteGraph (protein_molecule_graphs distZero fmtEmpty false goodInp false)).nodes.length
      = molAB.atoms.length
  ∧ (∀ sd : List (Nat × String),
      (addAtoms sd molAB).1.nodes.map Prod.fst = List.range molAB.atoms.length)) := by
  have hwf : molAB.WF := by
    intro b hb
    simp [molAB] at hb
  have hw : protein_molecule_graphs distZero fmtEmpty false goodInp false
      = JobResult.wrote (wroteGraph (protein_molecule_graphs distZero fmtEmpty false
        goodInp false)) := by decide
  exact ⟨hwf, claim_C8 distZero fmtEmpty false goodInp false _ molAB hwf rfl hw⟩

/-- Claim C9: an artifact is written only when the skip check, both
structure parses, the confidence dict, the PAE stage when enabled, and
the DSSP stage all succeeded; conversely a DSSP failure after healthy
earlier stages ends the job with a caught abort, so nothing is ever
persisted on a failure path. -/
theorem claim_C9 (dist : Pos → Pos → ℚ) (fmt : Pos → String) (ip : Bool) (inp : JobInput)
    (b : Bool) :
    (∀ g, protein_molecule_graphs dist fmt ip inp b = JobResult.wrote g →
      b = false ∧ inp.rmol.isSome ∧ inp.pstruct.isSome ∧
      (∀ s, inp.pstruct = some s → ∃ pd, buildPlddtDict s = Except.ok pd) ∧
      (ip = true → ∃ mat, getPaeMatrix inp.pae = Except.ok mat) ∧
      (∃ recs, inp.dssp = Except.ok recs))
  ∧ (∀ (mol : Mol) (s : BStructure) (pd : List (Int × ℚ)) (e : String),
      inp.rmol = some mol → inp.pstruct = some s → buildPlddtDict s = Except.ok pd →
      inp.dssp = Except.error e →
      protein_molecule_graphs dist fmt false inp false = JobResult.aborted e
    ∧ (∀ mat, getPaeMatrix inp.pae = Except.ok mat →
        protein_molecule_graphs dist fmt true inp false = JobResult.aborted e)) := by
  refine ⟨fun g hg => job_wrote_inv dist fmt ip inp b g hg, ?_⟩
  intro mol s pd e hm hs hpd hd
  exact ⟨job_dssp_aborted_no_pae dist fmt hm hs hpd hd,
    fun mat hpm => job_dssp_aborted_with_pae dist fmt hm hs hpd hpm hd⟩

theorem claim_C9_witness :
    inpDsspErr.dssp = Except.error "DSSP failed" ∧
    protein_molecule_graphs distZero fmtEmpty false inpDsspErr false
      = JobResult.aborted "DSSP failed" :=
  ⟨by decide, ((claim_C9 distZero fmtEmpty false inpDsspErr false).2 molAB structAB pdAB
    "DSSP failed" rfl rfl (by decide) rfl).1⟩

/-- Claim C10: the graph holds at most one edge record per unordered
pair at every stage (add_edge preserves the invariant from the empty
graph through to every written artifact); a PAE write onto an already
connected pair merges the error onto the existing record, keeping its
bond attributes and the edge count; and for every resolved pair i < j
of a square matrix the final error value is entry (j, i), the later
write. -/
theorem claim_C10 :
    NoDupEdges { nodes := [], edges := [] }
  ∧ (∀ (u v : Nat) (f : Option EdgeAttrs → EdgeAttrs) (G : NXGraph),
      NoDupEdges G → NoDupEdges (G.setEdge u v f))
  ∧ (∀ (dist : Pos → Pos → ℚ) (fmt : Pos → String) (ip : Bool) (inp : JobInput) (b : Bool)
      (g : NXGraph), protein_molecule_graphs dist fmt ip inp b = JobResult.wrote g →
      NoDupEdges g)
  ∧ (∀ (G : NXGraph) (u v : Nat) (p : ℚ) (old : EdgeAttrs), G.lookupEdge u v = some old →
      (G.setEdge u v (mergePae p)).lookupEdge u v
          = some { bond_idx := old.bond_idx
                   bond_order := old.bond_order
                   bond_length := old.bond_length
                   pae := some p }
        ∧ (G.setEdge u v (mergePae p)).edges.length = G.edges.length)
  ∧ (∀ (sd : List (Nat × String)) (mol : Mol) (mat : List (List ℚ)) (G : NXGraph)
      (i j a b : Nat), (∀ row ∈ mat, row.length = mat.length) → i < mat.length →
      j < mat.length → i < j →
      dget (addAtoms sd mol).2 ((i : Int) + 1) = some a →
      dget (addAtoms sd mol).2 ((j : Int) + 1) = some b →
      ∃ e, (addPaeEdges mat (addAtoms sd mol).2 G).lookupEdge a b = some e ∧
        e.pae = some ((mat.getD j []).getD i 0)) := by
  refine ⟨noDupEdges_empty, fun u v f G h => noDupEdges_setEdge h,
    fun dist fmt ip inp b g h => job_wrote_noDup h,
    fun G u v p old h => setEdge_merge_pae h, ?_⟩
  intro sd mol mat G i j a b hsq hi hj hij ha hb
  rcases pae_edge_value sd mol mat G hsq hi hj (by omega) ha hb with ⟨e, he, hp⟩
  refine ⟨e, he, ?_⟩
  rw [Nat.max_eq_right (Nat.le_of_lt hij), Nat.min_eq_left (Nat.le_of_lt hij)] at hp
  exact hp

theorem claim_C10_witness :
    gBond.lookupEdge 0 1 = some { bond_idx := some 5
                                  bond_order := some 1
                                  bond_length := some 2
                                  pae := none } ∧
    ((gBond.setEdge 0 1 (mergePae 7)).lookupEdge 0 1
        = some { bond_idx := some 5
                 bond_order := some 1
                 bond_length := some 2
                 pae := some 7 }
      ∧ (gBond.setEdge 0 1 (mergePae 7)).edges.length = gBond.edges.length) :=
  ⟨by decide, claim_C10.2.2.2.1 gBond 0 1 7
    { bond_idx := some 5
      bond_order := some 1
      bond_length := some 2
      pae := none } (by decide)⟩
